import Mathlib

/-!
Verification of the ConServ price-loader and reporting arithmetic
(`loaders.py`, `app.py`, `ai_text.py`).

Conventions of the shallow embedding:
* Python floats are modelled as exact rationals (`ℚ`); `float`/`int`
  arithmetic overflow and binary rounding are not modelled.
* Fallible code (code that can raise) returns `Except Unit`; `.error ()`
  stands for an uncaught exception.
* `None`-able values are `Option`; Python truthiness is modelled
  explicitly where the source relies on it (`x or y`, `if not lv`).
* The regular expressions used by the source are implemented as
  concrete scanning functions over `List Char`, following the
  leftmost-match / greedy semantics of `re.search` on the specific
  patterns appearing in the source.
-/

/-- Python `str.strip` / `\s` whitespace set (ASCII). -/
def pyIsSpace (c : Char) : Bool :=
  c = ' ' || c = '\t' || c = '\n' || c = '\r' || c = '\x0b' || c = '\x0c'

/-- Python word character for `\b` boundaries (ASCII `\w`). -/
def wordChar (c : Char) : Bool :=
  c.isAlphanum || c = '_'

/-- `str.strip()` on a char list. -/
def pyStripList (l : List Char) : List Char :=
  ((l.dropWhile pyIsSpace).reverse.dropWhile pyIsSpace).reverse

/-- `str.strip()`. -/
def pyStrip (s : String) : String :=
  ⟨pyStripList s.data⟩

/-- `str.replace(c, "")` for a one-character pattern: removes all occurrences. -/
def removeChar (c : Char) (l : List Char) : List Char :=
  l.filter (fun d => d ≠ c)

/-- `str.replace(pat, "")` for a multi-character pattern: removes
non-overlapping occurrences left to right. -/
def removeSubstr (pat : List Char) (l : List Char) : List Char :=
  match l with
  | [] => []
  | c :: cs =>
    if pat ≠ [] ∧ pat.isPrefixOf (c :: cs) then
      removeSubstr pat (cs.drop (pat.length - 1))
    else
      c :: removeSubstr pat cs
termination_by l.length
decreasing_by
  · simp only [List.length_drop, List.length_cons]
    omega
  · simp only [List.length_cons]
    omega

/-- Substring test (`pat in s` in Python). -/
def containsSub (hay pat : List Char) : Bool :=
  match hay with
  | [] => pat.isEmpty
  | _ :: t => pat.isPrefixOf hay || containsSub t pat

/-- Substring test on strings. -/
def strContains (hay pat : String) : Bool :=
  containsSub hay.data pat.data

/-- A digit-or-dot character, the class `[\d\.]` of `to_float`. -/
def numChar (c : Char) : Bool :=
  c.isDigit || c = '.'

/-- Value of a digit run as a natural number (big-endian). -/
def digitsVal (ds : List Char) : ℕ :=
  ds.foldl (fun a c => 10 * a + (c.toNat - 48)) 0

/-- Value of `intpart.fracpart` as a rational. -/
def ratOfParts (intPart fracPart : List Char) : ℚ :=
  (digitsVal intPart : ℚ) + (digitsVal fracPart : ℚ) / (10 : ℚ) ^ fracPart.length

/-- Python `float(tok)` on a token drawn from `[\d\.]+`: succeeds iff the
token has at least one digit and at most one dot. -/
def pyFloatTok (tok : List Char) : Option ℚ :=
  if tok.any Char.isDigit ∧ tok.count '.' ≤ 1 then
    some (ratOfParts (tok.takeWhile Char.isDigit)
      ((tok.dropWhile Char.isDigit).drop 1))
  else
    none

/-- Is a digit run a valid CPython decimal integer literal?  Leading
zeros are forbidden unless the literal is all zeros: `eval("08")` is a
`SyntaxError` ("leading zeros in decimal integer literals are not
permitted"), while `eval("00")` is `0`. -/
def validIntTok (tok : List Char) : Bool :=
  match tok with
  | '0' :: rest => rest.all (· = '0')
  | _ => true

/-- A digit-or-dot run as a CPython `eval` NUMBER literal: a float
literal (one dot, leading zeros allowed: `eval("08.5")` is `8.5`) or a
decimal integer literal subject to the leading-zero rule.  `none` models
the tokenizer/parser rejecting the run with `SyntaxError`. -/
def pyEvalNumTok (tok : List Char) : Option ℚ :=
  if tok.contains '.' || validIntTok tok then pyFloatTok tok else none

/-- Raw lexical tokens of a price string: number-like runs (`[\d\.]+`),
the arithmetic operators of Python `eval` that are formable from the
character class `[\d\.\s/*+-]` (`+ - * / ** //`), and any other
non-whitespace character. -/
inductive RTok where
  | num (run : List Char)
  | add | sub | mul | div | pow | fdiv
  | other (c : Char)
deriving DecidableEq

/-- Prepend a pending (reversed) number run, if any, to a token list. -/
def flushRun (run : List Char) (rest : List RTok) : List RTok :=
  if run.isEmpty then rest else RTok.num run.reverse :: rest

/-- Scan a character list into raw tokens.  Number runs are the maximal
runs of `[\d\.]` (exactly the matches of `re.findall(r"[\d\.]+", s)`);
`**` and `//` lex as single operators as CPython does. -/
def scanAux (run : List Char) (l : List Char) : List RTok :=
  match l with
  | [] => flushRun run []
  | c :: cs =>
    if numChar c then
      scanAux (c :: run) cs
    else
      flushRun run
        (if pyIsSpace c then scanAux [] cs
         else if c = '*' then
           if cs.head? = some '*' then RTok.pow :: scanAux [] cs.tail
           else RTok.mul :: scanAux [] cs
         else if c = '/' then
           if cs.head? = some '/' then RTok.fdiv :: scanAux [] cs.tail
           else RTok.div :: scanAux [] cs
         else if c = '+' then RTok.add :: scanAux [] cs
         else if c = '-' then RTok.sub :: scanAux [] cs
         else RTok.other c :: scanAux [] cs)
termination_by l.length
decreasing_by
  all_goals simp only [List.length_cons, List.length_tail]
  all_goals omega

/-- `re.findall(r"[\d\.]+", s)`: the maximal digit-or-dot runs. -/
def findallNum (l : List Char) : List (List Char) :=
  (scanAux [] l).filterMap fun t =>
    match t with
    | RTok.num r => some r
    | _ => none

/-- Arithmetic tokens for the `eval` model: literals already parsed. -/
inductive ATok where
  | num (q : ℚ)
  | add | sub | mul | div | pow | fdiv
deriving DecidableEq

/-- Turn raw tokens into arithmetic tokens; fails (like the CPython
tokenizer/parser) on any stray character or invalid numeric literal. -/
def toATok (ts : List RTok) : Option (List ATok) :=
  match ts with
  | [] => some []
  | RTok.num r :: rest =>
    match pyEvalNumTok r, toATok rest with
    | some q, some rs => some (ATok.num q :: rs)
    | _, _ => none
  | RTok.add :: rest => (toATok rest).map (ATok.add :: ·)
  | RTok.sub :: rest => (toATok rest).map (ATok.sub :: ·)
  | RTok.mul :: rest => (toATok rest).map (ATok.mul :: ·)
  | RTok.div :: rest => (toATok rest).map (ATok.div :: ·)
  | RTok.pow :: rest => (toATok rest).map (ATok.pow :: ·)
  | RTok.fdiv :: rest => (toATok rest).map (ATok.fdiv :: ·)
  | RTok.other _ :: _ => none

/-- Unary expression (`u_expr`): signs, a literal, optionally `** u_expr`
(right-associated, exponent must be an integer in this model; `0 ** n`
with `n < 0` fails like Python's `ZeroDivisionError`).  Fuel-indexed. -/
def parseU (fuel : Nat) (ts : List ATok) : Option (ℚ × List ATok) :=
  match fuel, ts with
  | 0, _ => none
  | fuel + 1, ATok.sub :: rest => (parseU fuel rest).map fun vr => (-vr.1, vr.2)
  | fuel + 1, ATok.add :: rest => parseU fuel rest
  | fuel + 1, ATok.num q :: ATok.pow :: rest => do
    let er ← parseU fuel rest
    if er.1.den = 1 then
      if q = 0 ∧ er.1.num < 0 then none else pure (q ^ er.1.num, er.2)
    else none
  | _ + 1, ATok.num q :: rest => some (q, rest)
  | _ + 1, _ => none

/-- Continuation of `m_expr`: fold `* / //` applications left to right. -/
def parseMCont (fuel : Nat) (acc : ℚ) (ts : List ATok) : Option (ℚ × List ATok) :=
  match fuel, ts with
  | 0, _ => none
  | fuel + 1, ATok.mul :: rest => do
    let vr ← parseU fuel rest
    parseMCont fuel (acc * vr.1) vr.2
  | fuel + 1, ATok.div :: rest => do
    let vr ← parseU fuel rest
    if vr.1 = 0 then none else parseMCont fuel (acc / vr.1) vr.2
  | fuel + 1, ATok.fdiv :: rest => do
    let vr ← parseU fuel rest
    if vr.1 = 0 then none else parseMCont fuel ((⌊acc / vr.1⌋ : ℤ) : ℚ) vr.2
  | _ + 1, _ => some (acc, ts)

/-- `m_expr`: a unary expression followed by `* / //` chains. -/
def parseM (fuel : Nat) (ts : List ATok) : Option (ℚ × List ATok) :=
  match fuel with
  | 0 => none
  | fuel + 1 => do
    let vr ← parseU fuel ts
    parseMCont fuel vr.1 vr.2

/-- Continuation of `a_expr`: fold `+ -` applications left to right. -/
def parseACont (fuel : Nat) (acc : ℚ) (ts : List ATok) : Option (ℚ × List ATok) :=
  match fuel, ts with
  | 0, _ => none
  | fuel + 1, ATok.add :: rest => do
    let vr ← parseM fuel rest
    parseACont fuel (acc + vr.1) vr.2
  | fuel + 1, ATok.sub :: rest => do
    let vr ← parseM fuel rest
    parseACont fuel (acc - vr.1) vr.2
  | _ + 1, _ => some (acc, ts)

/-- `a_expr`: an `m_expr` followed by `+ -` chains. -/
def parseA (fuel : Nat) (ts : List ATok) : Option (ℚ × List ATok) :=
  match fuel with
  | 0 => none
  | fuel + 1 => do
    let vr ← parseM fuel ts
    parseACont fuel vr.1 vr.2

/-- Evaluate a full token list as a Python arithmetic expression. -/
def evalToks (ts : List ATok) : Option ℚ :=
  match parseA (4 * ts.length + 8) ts with
  | some (v, []) => some v
  | _ => none

/-- Model of `eval(s)` restricted to the character class
`[\d\.\s/*+-]`: lex then parse/evaluate with Python's precedence
(`+ -` < `* / //` < sign < `**`).  `none` stands for any exception
(`SyntaxError`, `ZeroDivisionError`), which `to_float` catches. -/
def evalArith (l : List Char) : Option ℚ :=
  (toATok (scanAux [] l)).bind evalToks

/-- The cleaning pipeline of `to_float` (loaders.py:20):
`str(x).replace(",", "").replace("$", "").replace("TTD", "").strip()`. -/
def stripPrice (x : String) : String :=
  pyStrip ⟨removeSubstr "TTD".data (removeChar '$' (removeChar ',' x.data))⟩

/-- `any(ch in s for ch in "/*+-")` (loaders.py:22). -/
def hasOpChar (s : String) : Bool :=
  s.data.any fun c => c = '/' || c = '*' || c = '+' || c = '-'

/-- `re.match(r"^[\d\.\s/*+-]+$", s)` (loaders.py:22): nonempty and
drawn from digits, dots, whitespace and the four operator characters. -/
def formulaChars (s : String) : Bool :=
  !s.data.isEmpty &&
    s.data.all fun c => numChar c || pyIsSpace c || c = '/' || c = '*' || c = '+' || c = '-'

/-- The guarded `float(eval(s))` branch of `to_float` (loaders.py:21-25);
`none` when the guard fails or `eval` raises (caught by the source). -/
def toFloatEvalBranch (s : String) : Option ℚ :=
  if hasOpChar s && formulaChars s then evalArith s.data else none

/-- `to_float` (loaders.py:17-27).  `.error ()` models an uncaught
exception: the final `float(m[-1])` is outside the `try` block and
raises `ValueError` on an invalid literal. -/
def to_float (x : String) : Except Unit (Option ℚ) :=
  let s := stripPrice x
  match toFloatEvalBranch s with
  | some v => .ok (some v)
  | none =>
    match (findallNum s.data).getLast? with
    | none => .ok none
    | some r =>
      match pyFloatTok r with
      | some v => .ok (some v)
      | none => .error ()

/-- ASCII `str.upper()`. -/
def pyToUpper (s : String) : String :=
  ⟨s.data.map Char.toUpper⟩

/-- ASCII `str.lower()`. -/
def pyToLower (s : String) : String :=
  ⟨s.data.map Char.toLower⟩

/-- `list.isPrefixOf`-based `str.startswith`. -/
def startsWithL (p l : List Char) : Bool :=
  p.isPrefixOf l

/-- Does the list start with a `\w` character?  (End of input counts as
a non-word position.) -/
def headIsWord (l : List Char) : Bool :=
  match l with
  | [] => false
  | c :: _ => wordChar c

/-- `\b` between a previous character of word-ness `prevWord` and the
rest of the input. -/
def bAt (prevWord : Bool) (l : List Char) : Bool :=
  prevWord != headIsWord l

/-- A `\b` right after a word character, i.e. rest starts with a
non-word character or is empty. -/
def boundaryAfter (rest : List Char) : Bool :=
  !headIsWord rest

/-- Does one of `words` occur here as a prefix with a `\b` after it?
Models the alternation `(M|METERS|METRES)\b` etc. of `parse_length`. -/
def unitWordAt (words : List (List Char)) (l : List Char) : Bool :=
  words.any fun w => w.isPrefixOf l && boundaryAfter (l.drop w.length)

/-- Try `(\d+(\.\d+)?)\s*(WORDS)\b` anchored at the head of `l`
(greedy number, then whitespace, then a unit word). -/
def attemptNumUnit (words : List (List Char)) (l : List Char) : Option ℚ :=
  let ds := l.takeWhile Char.isDigit
  if ds.isEmpty then none
  else
    let rest := l.dropWhile Char.isDigit
    let fr :=
      match rest with
      | '.' :: r2 =>
        let ds2 := r2.takeWhile Char.isDigit
        if ds2.isEmpty then ([], rest) else (ds2, r2.dropWhile Char.isDigit)
      | _ => ([], rest)
    if unitWordAt words (fr.2.dropWhile pyIsSpace) then
      some (ratOfParts ds fr.1)
    else none

/-- `re.search` driver: leftmost position where the pattern matches. -/
def searchNumUnit (words : List (List Char)) : List Char → Option ℚ
  | [] => none
  | c :: cs =>
    match attemptNumUnit words (c :: cs) with
    | some v => some v
    | none => searchNumUnit words cs

/-- The negative lookahead `(?!\s*(MM|CM|M))` of the implicit-length
pattern: true when the lookahead pattern is present (so the match must
be rejected). -/
def lookaheadMM (rest : List Char) : Bool :=
  let r := rest.dropWhile pyIsSpace
  startsWithL "MM".data r || startsWithL "CM".data r || startsWithL "M".data r

/-- Try `x\s*(\d+(\.\d+)?)\b(?!\s*(MM|CM|M))` anchored at the head:
a literal lowercase `x`, whitespace, a greedy number (the fractional
part is dropped again if `\b` or the lookahead fails on it). -/
def attemptImplicit (l : List Char) : Option ℚ :=
  match l with
  | 'x' :: r1 =>
    let r2 := r1.dropWhile pyIsSpace
    let ds := r2.takeWhile Char.isDigit
    if ds.isEmpty then none
    else
      let rest := r2.dropWhile Char.isDigit
      let fr :=
        match rest with
        | '.' :: r3 =>
          let ds2 := r3.takeWhile Char.isDigit
          if ds2.isEmpty then none else some (ds2, r3.dropWhile Char.isDigit)
        | _ => none
      match fr with
      | some (fs, rest2) =>
        if boundaryAfter rest2 && !lookaheadMM rest2 then some (ratOfParts ds fs)
        else if boundaryAfter rest && !lookaheadMM rest then some (ratOfParts ds [])
        else none
      | none =>
        if boundaryAfter rest && !lookaheadMM rest then some (ratOfParts ds [])
        else none
  | _ => none

/-- `re.search` driver for the implicit-length pattern. -/
def searchImplicit : List Char → Option ℚ
  | [] => none
  | c :: cs =>
    match attemptImplicit (c :: cs) with
    | some v => some v
    | none => searchImplicit cs

/-- `parse_length` (loaders.py:58-76).  Note that the implicit-length
pattern searches for a lowercase `x` in the already uppercased text. -/
def parse_length (text : String) : Option (ℚ × String) :=
  let up := (pyToUpper text).data.map fun c => if c = '×' then 'X' else c
  match searchNumUnit ["METERS".data, "METRES".data, "M".data] up with
  | some v => some (v, "m")
  | none =>
    match searchNumUnit ["FT".data, "FEET".data, "FOOT".data] up with
    | some v => some (v, "ft")
    | none =>
      match searchImplicit up with
      | some v => if 5 ≤ v ∧ v ≤ 40 then some (v, "ft") else none
      | none => none

/-- `\bPAT\b` search for a pattern whose edge characters are word
characters (used for `\b3/8\b`, `\b1/2\b`, `\b5/8\b`, `\b3/4\b`, `\bMS\b`). -/
def boundedSubAux (pat : List Char) (prevWord : Bool) (l : List Char) : Bool :=
  (pat.isPrefixOf l && !prevWord && boundaryAfter (l.drop pat.length)) ||
    match l with
    | [] => false
    | c :: cs => boundedSubAux pat (wordChar c) cs

/-- `re.search(r"\bPAT\b", s)` for word-edged patterns. -/
def boundedSub (pat : List Char) (l : List Char) : Bool :=
  boundedSubAux pat false l

/-- `KG_PER_M` (loaders.py:8-13). -/
def KG_PER_M : List (String × ℚ) :=
  [("3/8", 0.560), ("1/2", 0.994), ("5/8", 1.550), ("3/4", 2.260)]

/-- `FT_TO_M` (loaders.py:5). -/
def FT_TO_M : ℚ := 0.3048

/-- `DEFAULT_19FT_M` (loaders.py:6). -/
def DEFAULT_19FT_M : ℚ := 19 * FT_TO_M

/-- `steel_size_from_text` (loaders.py:78-90): the text is uppercased
and stripped of spaces before the word-bounded fraction patterns are
tried in dictionary order. -/
def steel_size_from_text (text : String) : Option String :=
  let up := removeChar ' ' (pyToUpper text).data
  if boundedSub "3/8".data up || containsSub up "10MM".data then some "3/8"
  else if boundedSub "1/2".data up || containsSub up "12MM".data then some "1/2"
  else if boundedSub "5/8".data up || containsSub up "16MM".data then some "5/8"
  else if boundedSub "3/4".data up || containsSub up "20MM".data then some "3/4"
  else none

/-- `steel_grade_from_text` (loaders.py:92-96). -/
def steel_grade_from_text (text : String) : String :=
  let up := (pyToUpper text).data
  if containsSub up "CORR".data || containsSub up "DEFORM".data ||
     containsSub up "RIB".data || containsSub up "TENS".data then "corrugated"
  else if containsSub up "MILD".data || containsSub up "SMOOTH".data ||
     boundedSub "MS".data up then "mild"
  else "corrugated"

/-- Python truthiness of an optional float (`None` and `0.0` are falsy). -/
def truthyQ (o : Option ℚ) : Bool :=
  o.elim false fun v => v ≠ 0

/-- Python truthiness of an optional string (`None` and `""` are falsy). -/
def truthyS (o : Option String) : Bool :=
  o.elim false fun s => s ≠ ""

/-- `a or b` for optional floats. -/
def pyOrQ (a b : Option ℚ) : Option ℚ :=
  if truthyQ a then a else b

/-- `a or b` for optional strings. -/
def pyOrS (a b : Option String) : Option String :=
  if truthyS a then a else b

/-- `per_meter` (loaders.py:98-109).  The `price is None` guard is
handled by the caller, which skips rows without a parsed price. -/
def per_meter (price : ℚ) (lv : Option ℚ) (lu : Option String)
    (size_in : Option String) (name_up : String) : ℚ :=
  let kgOrDefault :=
    if containsSub name_up.data " KG".data || containsSub name_up.data "PER KG".data then
      match size_in.bind fun s => KG_PER_M.lookup s with
      | some kgpm => if kgpm ≠ 0 then price * kgpm else price / DEFAULT_19FT_M
      | none => price / DEFAULT_19FT_M
    else price / DEFAULT_19FT_M
  if truthyQ lv && truthyS lu then
    let u := (pyToLower (lu.getD "")).data
    if startsWithL "m".data u then price / lv.getD 0
    else if startsWithL "f".data u then price / (lv.getD 0 * FT_TO_M)
    else kgOrDefault
  else kgOrDefault

/-- The rebar section of `load_steel` (loaders.py:168-193), for a row
that reaches it (name without `PURLIN`, parsed price): resolve the
length from the row columns (`lv0`, `lu0`), then `parse_length`, then
the 19 ft default, and convert to a per-meter price.  `size0` is the
optional `size_in` CSV column. -/
def rebar_per_m (name : String) (price : ℚ) (lv0 : Option ℚ)
    (lu0 : Option String) (size0 : Option String) : ℚ :=
  let up := pyToUpper name
  let lvlu :=
    if !truthyQ lv0 || !truthyS lu0 then
      let pl := parse_length up
      (pyOrQ lv0 (pl.map Prod.fst), pyOrS lu0 (pl.map Prod.snd))
    else (lv0, lu0)
  let lvlu2 :=
    if !truthyQ lvlu.1 || !truthyS lvlu.2 then ((some (19 : ℚ)), some "ft")
    else lvlu
  per_meter price lvlu2.1 lvlu2.2 (pyOrS size0 (steel_size_from_text up)) up

/-- The `\s` variant of the `(^|\s)` block-size prefix: scan for the
digit `d` preceded by start-of-string or a whitespace character. -/
def blockTail (prevWord : Bool) (rest : List Char) : Bool :=
  bAt prevWord rest ||
    (match rest with
     | '"' :: r2 => bAt false r2
     | _ => false) ||
    (match rest with
     | c :: r2 => pyIsSpace c && blockTail false r2
     | [] => false)

/-- `re.search(r'(^|\s)D\s*"?\b', s)` for a digit `D`, with the
backtracking paths of `\s*"?\b` enumerated by `blockTail`. -/
def blockSizeAux (d : Char) : List Char → Bool
  | [] => false
  | [_] => false
  | a :: b :: rest => (pyIsSpace a && b = d && blockTail true rest) || blockSizeAux d (b :: rest)

/-- Block-size pattern search (loaders.py:230-232). -/
def blockSizeSearch (d : Char) (l : List Char) : Bool :=
  (match l with
   | c :: rest => c = d && blockTail true rest
   | [] => false) || blockSizeAux d l

/-- One row of `load_building` (loaders.py:209-268): the ordered
keyword cascade (cement, block, mesh, tie wire, purlin, paint) mapping
a row to the canonical key and unit price it contributes, or `none`
when the row is classified into no key. -/
def load_building_row (name : String) (price : ℚ) : Option (String × ℚ) :=
  let up := (pyToUpper name).data
  if containsSub up "CEMENT".data &&
     !(containsSub up "BOARD".data || containsSub up "ADHESIVE".data ||
       containsSub up "THINSET".data || containsSub up "CONTACT".data) then
    if containsSub up "PREMIUM".data then some ("cement_bag_premium", price)
    else if containsSub up "ECO".data then some ("cement_bag_eco", price)
    else if containsSub up "LOOSE".data || containsSub up " PER LB".data ||
       containsSub up "LB".data then some ("cement_loose_lb", price)
    else some ("cement_bag", price)
  else if containsSub up "BLOCK".data then
    let size : Option String :=
      if blockSizeSearch '8' up || containsSub up "8X8X16".data then some "8"
      else if blockSizeSearch '6' up || containsSub up "6X8X16".data then some "6"
      else if blockSizeSearch '4' up || containsSub up "4X8X16".data then some "4"
      else none
    let clay := containsSub up "CLAY".data || containsSub up "RED".data
    match size with
    | none => none
    | some s =>
      if clay && s = "4" then some ("block_clay_4in", price)
      else if !clay then some (⟨"block_".data ++ s.data ++ "in".data⟩, price)
      else none
  else if containsSub up "MESH".data && containsSub up "A142".data then
    some ("mesh_A142_sheet", price)
  else if containsSub up "TIE WIRE".data || containsSub up "BINDING WIRE".data then
    some ("tie_wire_kg", price)
  else if containsSub up "PURLIN".data then
    let per_m :=
      match parse_length ⟨up⟩ with
      | some (lv, lu) =>
        if lv ≠ 0 then
          if startsWithL "m".data (pyToLower lu).data then price / lv
          else if startsWithL "f".data (pyToLower lu).data then price / (lv * FT_TO_M)
          else price
        else price
      | none => price
    let padded := ' ' :: (up ++ [' '])
    let kind : Option String :=
      if containsSub padded " Z ".data || startsWithL "Z ".data up then some "purlin_z_m"
      else if containsSub padded " C ".data || startsWithL "C ".data up then some "purlin_c_m"
      else none
    kind.map fun k => (k, per_m)
  else if (containsSub up "PAINT".data || containsSub up "EMULSION".data) &&
     containsSub up "GAL".data then some ("paint_gal", price)
  else none

/-- One step of the min-accumulation of `load_steel`/`load_building`:
`prices[key] = min(prices.get(key, 1e18), v)`. -/
def loaderMinStep (acc : Option ℚ) (p : ℚ) : Option ℚ :=
  some (min (acc.getD (10 ^ 18)) p)

/-- Per-key accumulation of `load_steel` and `load_building`
(`prices[key] = min(prices.get(key, 1e18), v)`, loaders.py:160/187/218-223
etc.), applied to the successive candidate values for one key. -/
def loaderMinKey (cands : List ℚ) : Option ℚ :=
  cands.foldl loaderMinStep none

/-- Per-key behaviour of `load_aggregates` (`out[k] = v`,
loaders.py:113-121): later rows overwrite earlier ones. -/
def aggLastKey (cands : List ℚ) : Option ℚ :=
  cands.foldl (fun _ p => some p) none

/-- One step of `merge_prices` for one key (loaders.py:286-288):
`out[k] = min(out.get(k, float(v)), float(v)) if k in out else float(v)`,
skipping `None` values. -/
def mergeStep (out v? : Option ℚ) : Option ℚ :=
  match v? with
  | none => out
  | some v =>
    match out with
    | none => some v
    | some o => some (min o v)

/-- Per-key behaviour of `merge_prices` (loaders.py:282-289): fold the
non-`None` values of the successive dictionaries with `min`. -/
def merge_prices_key (vals : List (Option ℚ)) : Option ℚ :=
  vals.foldl mergeStep none

/-- The merged price of one key across the three CSV loaders, in the
order of `app.py:313`: `merge_prices(agg, steel_prices, building_prices)`. -/
def pipelineKey (agg steel bld : List ℚ) : Option ℚ :=
  merge_prices_key [aggLastKey agg, loaderMinKey steel, loaderMinKey bld]

/-- Specification predicate: `o` holds the minimum of the (possibly
empty) candidate list `P`. -/
def OptMinSpec (o : Option ℚ) (P : List ℚ) : Prop :=
  (o = none ∧ P = []) ∨ ∃ m, o = some m ∧ m ∈ P ∧ ∀ x ∈ P, m ≤ x

/-- Python 3 `round` to an integer: round-half-to-even. -/
def pyRoundHalfEven (x : ℚ) : ℤ :=
  if x - ⌊x⌋ < 1 / 2 then ⌊x⌋
  else if 1 / 2 < x - ⌊x⌋ then ⌊x⌋ + 1
  else if 2 ∣ ⌊x⌋ then ⌊x⌋ else ⌊x⌋ + 1

/-- Python `round(x, 2)`. -/
def pyRound2 (x : ℚ) : ℚ :=
  (pyRoundHalfEven (x * 100) : ℚ) / 100

/-- `compute_delivery_fee_km` (app.py:86-95). -/
def compute_delivery_fee_km (base_fee per_km free_radius dist_km : ℚ) : ℚ :=
  pyRound2 (base_fee + max 0 (dist_km - free_radius) * per_km)

/-- The fee computed by the `/api/delivery-quote` endpoint (app.py:712):
`round(DELIVERY_BASE_FEE + DELIVERY_PER_KM * km, 2)` — no free-radius
deduction. -/
def delivery_quote_fee (base_fee per_km km : ℚ) : ℚ :=
  pyRound2 (base_fee + per_km * km)

/-- `normalize_material_name` (app.py:456-467). -/
def normalize_material_name (name : String) : String :=
  let n := pyToLower (pyStrip name)
  if n = "" then "other"
  else if strContains n "sharp sand" || strContains n "sharp_sand" then "sharp_sand"
  else if strContains n "gravel" then "gravel"
  else if strContains n "sand" then "sand"
  else "other"

/-- `to_yd3` (app.py:436-453).  `bagsPerYd3` models the env-configured
`BAGS_PER_YD3` (default 20); the source multiplies by the global
`BAG_TO_YD3 = 1.0 / BAGS_PER_YD3`.  A quantity that `float` cannot
parse is turned into `0` by the source before this logic runs, so the
quantity is taken as a rational here. -/
def to_yd3 (bagsPerYd3 : ℚ) (quantity : ℚ) (unit : Option String)
    (product : Option String) : ℚ :=
  let u := pyToLower (pyStrip (unit.getD ""))
  if u = "yd3" then quantity
  else if u = "m3" then quantity / 0.764555
  else if u = "bag" || u = "bags" then
    let prod := normalize_material_name (product.getD "")
    if prod = "sand" || prod = "gravel" || prod = "sharp_sand" then
      quantity * (1 / bagsPerYd3)
    else 0
  else 0

/-- A purchase line item joined with its invoice
(`PurchaseLineItem`, app.py): only the fields read by
`_compute_weighted_avg_cost`.  Date filtering happens in the database
query, so a list of `PurchaseLine`s stands for the rows in range. -/
structure PurchaseLine where
  material_key : Option String
  category : Option String
  description : Option String
  quantity : ℚ
  unit : Option String
  line_total : Option ℚ
  unit_price : Option ℚ
deriving DecidableEq

/-- `normalize_material_name(li.material_key or li.category or
li.description or "")` with the source's `.strip()` (app.py:484-485). -/
def purchaseProduct (l : PurchaseLine) : String :=
  normalize_material_name
    (pyStrip ((pyOrS l.material_key (pyOrS l.category l.description)).getD ""))

/-- The line cost of app.py:492-501: `line_total` if present, otherwise
`unit_price * quantity`. -/
def purchaseLineCost (l : PurchaseLine) : ℚ :=
  match l.line_total with
  | some t => t
  | none => l.unit_price.getD 0 * l.quantity

/-- Does a purchase line contribute to the totals of
`_compute_weighted_avg_cost` for product `p`?  (app.py:484-491: product
not `"other"` and positive converted volume.) -/
def purchaseContributes (B : ℚ) (p : String) (l : PurchaseLine) : Bool :=
  purchaseProduct l = p && p ≠ "other" &&
    0 < to_yd3 B l.quantity l.unit (some (purchaseProduct l))

/-- One iteration of the totals loop of `_compute_weighted_avg_cost`
(app.py:482-506): skip non-aggregate products and non-positive
converted volumes, otherwise accumulate `(qty_yd3, cost)` under the
product key. -/
def wavcStep (B : ℚ) (totals : String → Option (ℚ × ℚ)) (l : PurchaseLine) :
    String → Option (ℚ × ℚ) :=
  let product := purchaseProduct l
  if product = "other" then totals
  else
    let qty := to_yd3 B l.quantity l.unit (some product)
    if qty ≤ 0 then totals
    else
      let cost := purchaseLineCost l
      let prev := (totals product).getD (0, 0)
      Function.update totals product (some (prev.1 + qty, prev.2 + cost))

/-- The `totals` dictionary of `_compute_weighted_avg_cost`
(app.py:480-506), as a function from product to the accumulated
`(qty_yd3, cost)` pair. -/
def wavcTotals (B : ℚ) (lines : List PurchaseLine) : String → Option (ℚ × ℚ) :=
  lines.foldl (wavcStep B) fun _ => none

/-- The `avg` dictionary of `_compute_weighted_avg_cost`
(app.py:508-512): `cost / qty` for products with positive accumulated
volume; `none` models absence from the dictionary. -/
def weighted_avg_cost (B : ℚ) (lines : List PurchaseLine) (p : String) : Option ℚ :=
  match wavcTotals B lines p with
  | some qc => if 0 < qc.1 then some (qc.2 / qc.1) else none
  | none => none

/-- Declarative total converted purchase volume of product `p`
(the sum of `to_yd3` over the contributing lines). -/
def purchaseVol (B : ℚ) (p : String) (lines : List PurchaseLine) : ℚ :=
  ((lines.filter (purchaseContributes B p)).map
    fun l => to_yd3 B l.quantity l.unit (some p)).sum

/-- Declarative total purchase cost of product `p` over the same lines. -/
def purchaseCost (B : ℚ) (p : String) (lines : List PurchaseLine) : ℚ :=
  ((lines.filter (purchaseContributes B p)).map purchaseLineCost).sum

/-- A sales receipt line joined with its receipt (`SalesReceiptLine`,
app.py): the fields read by the gross-profit report. -/
structure SalesLine where
  material_key : Option String
  item_name : Option String
  quantity : ℚ
  unit : Option String
  unit_price : Option ℚ
  line_total : Option ℚ
deriving DecidableEq

/-- `normalize_material_name(li.material_key or li.item_name)`
(app.py:1055). -/
def salesProduct (l : SalesLine) : String :=
  normalize_material_name ((pyOrS l.material_key l.item_name).getD "")

/-- `(li.unit or 'yd3').lower()` (app.py:1059). -/
def salesUnit (l : SalesLine) : String :=
  pyToLower ((pyOrS l.unit (some "yd3")).getD "")

/-- The volume (in yd³) a sales line adds to `qty_yd3_total`
(app.py:1062-1070): `to_yd3` for bag and other units, the raw quantity
when the unit is exactly `yd3`. -/
def salesLineVol (B : ℚ) (l : SalesLine) : ℚ :=
  let u := salesUnit l
  if u = "bag" || u = "bags" then to_yd3 B l.quantity (some u) (some (salesProduct l))
  else if u = "yd3" then l.quantity
  else to_yd3 B l.quantity (some u) (some (salesProduct l))

/-- The volume a sales line adds to `qty_yd3_bag` (app.py:1062-1067):
`to_yd3` for bag units, `0` otherwise. -/
def salesLineBagVol (B : ℚ) (l : SalesLine) : ℚ :=
  let u := salesUnit l
  if u = "bag" || u = "bags" then to_yd3 B l.quantity (some u) (some (salesProduct l))
  else 0

/-- `revenue = float(li.line_total or (qty_raw * price))` (app.py:1071-1072)
with Python's falsy `or`: a zero `line_total` also falls back. -/
def salesLineRevenue (l : SalesLine) : ℚ :=
  match l.line_total with
  | some t => if t ≠ 0 then t else l.quantity * l.unit_price.getD 0
  | none => l.quantity * l.unit_price.getD 0

/-- One iteration of the sales aggregation loop of `staff_reports_gp`
(app.py:1054-1074). -/
def salesStep (B : ℚ) (sales : String → Option (ℚ × ℚ × ℚ)) (l : SalesLine) :
    String → Option (ℚ × ℚ × ℚ) :=
  let product := salesProduct l
  if product = "other" then sales
  else
    let prev := (sales product).getD (0, 0, 0)
    Function.update sales product
      (some (prev.1 + salesLineVol B l, prev.2.1 + salesLineBagVol B l,
        prev.2.2 + salesLineRevenue l))

/-- The `sales` dictionary of `staff_reports_gp` (app.py:1053-1074):
product to `(qty_yd3_total, qty_yd3_bag, revenue)`. -/
def salesTotals (B : ℚ) (lines : List SalesLine) : String → Option (ℚ × ℚ × ℚ) :=
  lines.foldl (salesStep B) fun _ => none

/-- One row of the gross-profit report. -/
structure GPRow where
  product : String
  qty_yd3 : ℚ
  revenue : ℚ
  avg_cost_yd3 : ℚ
  cogs : ℚ
  gp : ℚ
  margin : ℚ

/-- The per-product gross-profit computation of `staff_reports_gp`
(app.py:1084-1102), with `B` the `BAGS_PER_YD3` constant and `bagCost`
the `BAG_COST_PER_BAG` constant.  `none` when the product has no sales
entry (the loop runs over `sales.keys()`). -/
def gpRow (B bagCost : ℚ) (purch : List PurchaseLine) (sales : List SalesLine)
    (p : String) : Option GPRow :=
  match salesTotals B sales p with
  | none => none
  | some qbr =>
    let qty := qbr.1
    let bagQty := qbr.2.1
    let revenue := qbr.2.2
    let cost_per_yd3 := (weighted_avg_cost B purch p).getD 0
    let packaging := if p = "sand" || p = "gravel" || p = "sharp_sand" then bagCost * B else 0
    let cogs := cost_per_yd3 * qty + packaging * bagQty
    let gp := revenue - cogs
    let margin := if 0 < revenue then gp / revenue * 100 else 0
    some ⟨p, qty, revenue, cost_per_yd3, cogs, gp, margin⟩

/-- Declarative total sold volume of product `p` (sum of per-line
volumes over the sales lines normalising to `p`). -/
def salesVol (B : ℚ) (p : String) (lines : List SalesLine) : ℚ :=
  ((lines.filter fun l => salesProduct l = p).map (salesLineVol B)).sum

/-- Declarative total bag-sold volume of product `p`. -/
def salesBagVol (B : ℚ) (p : String) (lines : List SalesLine) : ℚ :=
  ((lines.filter fun l => salesProduct l = p).map (salesLineBagVol B)).sum

/-- Declarative total revenue of product `p`. -/
def salesRevenue (p : String) (lines : List SalesLine) : ℚ :=
  ((lines.filter fun l => salesProduct l = p).map salesLineRevenue).sum

/-- A Python/JSON scalar as it appears in AI-returned line items. -/
inductive PyVal where
  | num (q : ℚ)
  | str (s : String)
  | noneV
deriving DecidableEq

/-- Python truthiness of a scalar. -/
def pyValTruthy : PyVal → Bool
  | .num q => q ≠ 0
  | .str s => s ≠ ""
  | .noneV => false

/-- Python `float(s)` on a string: optional whitespace and sign, then a
decimal literal with at most one dot.  (Exponent, `inf` and `nan`
spellings are not modelled.) -/
def pyParseFloat (s : String) : Option ℚ :=
  let t := pyStripList s.data
  let sr : ℚ × List Char :=
    match t with
    | '-' :: r => (-1, r)
    | '+' :: r => (1, r)
    | _ => (1, t)
  if !sr.2.isEmpty && sr.2.all numChar then
    (pyFloatTok sr.2).map (sr.1 * ·)
  else none

/-- Python `float(x)`: `TypeError` on `None` and parse failures both
come out as `none`. -/
def pyValFloat : PyVal → Option ℚ
  | .num q => some q
  | .str s => pyParseFloat s
  | .noneV => none

/-- `ALLOWED_KEYS` (ai_text.py:18-32; the same 25 keys form the
`ALLOWED_KEYS` set of app.py:357-364). -/
def ALLOWED_KEYS : List String :=
  ["sand_m3", "sharp_sand_m3", "gravel_m3", "red_sand_m3", "backfill_m3",
   "soakaway_boulders_m3",
   "cement_bag", "cement_bag_eco", "cement_bag_premium", "cement_loose_lb",
   "block_4in", "block_6in", "block_8in", "block_clay_4in",
   "rebar_corr_3_8_m", "rebar_corr_1_2_m", "rebar_corr_5_8_m",
   "rebar_mild_3_8_m", "rebar_mild_1_2_m", "rebar_mild_5_8_m",
   "mesh_A142_sheet", "tie_wire_kg", "purlin_z_m", "purlin_c_m",
   "paint_gal"]

/-- `_ALLOWED_UNITS` (ai_text.py:35). -/
def ALLOWED_UNITS : List String :=
  ["m3", "m", "kg", "bag", "sheet", "pcs", "gal", "lb"]

/-- `_norm_unit` (ai_text.py:115-135): non-strings normalise to `""`. -/
def norm_unit : PyVal → String
  | .str s =>
    let u := pyToLower (pyStrip s)
    if u = "meter" || u = "meters" || u = "metre" || u = "metres" then "m"
    else if u = "m^3" || u = "m³" || u = "cubic meter" || u = "cubic meters" ||
       u = "cubic metre" || u = "cubic metres" then "m3"
    else if u = "bags" then "bag"
    else if u = "sheets" then "sheet"
    else if u = "pieces" || u = "piece" then "pcs"
    else if u = "gallon" || u = "gallons" then "gal"
    else if u = "pound" || u = "pounds" then "lb"
    else u
  | _ => ""

/-- One raw AI-returned line item: the three fields the validators read
(`it.get("key")`, `it.get("qty")`, `it.get("unit", "")`); a missing
field stands as `noneV` (or `.str ""` for the defaulted unit). -/
structure RawLine where
  key : PyVal
  qty : PyVal
  unit : PyVal

/-- A line after `_validate_lines`. -/
structure CleanLine where
  key : String
  qty : ℚ
  unit : String

/-- `key in ALLOWED_KEYS` for a scalar: only allow-listed strings pass. -/
def keyAllowedVal : PyVal → Option String
  | .str s => if ALLOWED_KEYS.contains s then some s else none
  | _ => none

/-- `_validate_lines` (ai_text.py:149-173).  A `none` element stands
for a non-dict entry of the raw list (dropped by the `isinstance`
check); a non-list payload yields `[]` upstream. -/
def validate_lines (raw : List (Option RawLine)) : List CleanLine :=
  raw.filterMap fun it? => do
    let it ← it?
    let u := norm_unit it.unit
    let k ← keyAllowedVal it.key
    let q ← pyValFloat it.qty
    if q ≤ 0 then none
    else if ALLOWED_UNITS.contains u then some ⟨k, q, u⟩
    else none

/-- `str.replace(pat, repl)`: replace non-overlapping occurrences left
to right. -/
def replaceSubstr (pat repl : List Char) (l : List Char) : List Char :=
  match l with
  | [] => []
  | c :: cs =>
    if pat ≠ [] ∧ pat.isPrefixOf (c :: cs) then
      repl ++ replaceSubstr pat repl (cs.drop (pat.length - 1))
    else
      c :: replaceSubstr pat repl cs
termination_by l.length
decreasing_by
  · simp only [List.length_drop, List.length_cons]
    omega
  · simp only [List.length_cons]
    omega

/-- `pretty_name` (app.py:366-373). -/
def pretty_name (key : String) : String :=
  let d := key.data
  let mk := fun (suf rep : String) =>
    (⟨replaceSubstr "_".data " ".data (replaceSubstr suf.data rep.data d)⟩ : String)
  if "_m3".data.isSuffixOf d then mk "_m3" " (m³)"
  else if "_m".data.isSuffixOf d then mk "_m" " (m)"
  else if "_gal".data.isSuffixOf d then mk "_gal" " (gal)"
  else if "_bag".data.isSuffixOf d then mk "_bag" " (bag)"
  else if "_sheet".data.isSuffixOf d then mk "_sheet" " (sheet)"
  else if "_kg".data.isSuffixOf d then mk "_kg" " (kg)"
  else ⟨replaceSubstr "_".data " ".data d⟩

/-- `_lookup_price` inside `price_bom_lines` (app.py:379-385). -/
def lookupPrice (prices : String → Option ℚ) (key : String) : Option ℚ :=
  if key = "cement_bag" then
    match prices "cement_bag" with
    | some v => some v
    | none =>
      match prices "cement_bag_eco" with
      | some v => some v
      | none => prices "cement_bag_premium"
  else prices key

/-- One output line of `price_bom_lines`. -/
structure OutLine where
  name : String
  qty : ℚ
  unit : PyVal
  unit_price : ℚ
  total : ℚ

/-- `float(it.get("qty", 0) or 0)` in `price_bom_lines` (app.py:388):
`none` when `float` would raise. -/
def bomLineQty (it : RawLine) : Option ℚ :=
  pyValFloat (if pyValTruthy it.qty then it.qty else .num 0)

/-- The body of one `price_bom_lines` loop iteration after the quantity
has been parsed (app.py:389-397): drop non-allow-listed keys, emit an
UNPRICED line for keys without a price, otherwise emit a priced line
and add to the running total.  Returns the updated
`(total, reversed output)`. -/
def price_bom_line (prices : String → Option ℚ) (it : RawLine) (qty : ℚ)
    (total : ℚ) (acc : List OutLine) : ℚ × List OutLine :=
  match keyAllowedVal it.key with
  | none => (total, acc)
  | some k =>
    match lookupPrice prices k with
    | none => (total, ⟨pretty_name k ++ " — UNPRICED", qty, it.unit, 0, 0⟩ :: acc)
    | some up =>
      (total + qty * up,
        ⟨pretty_name k, pyRound2 qty, it.unit, pyRound2 up,
          pyRound2 (qty * up)⟩ :: acc)

/-- The loop of `price_bom_lines` (app.py:387-397), carrying the
running total and the reversed output list.  `float(it.get("qty", 0) or 0)`
is evaluated before the key check and is not guarded by a `try`, so a
non-numeric quantity raises (`.error ()`). -/
def price_bom_go (prices : String → Option ℚ) :
    List RawLine → ℚ → List OutLine → Except Unit (List OutLine × ℚ)
  | [], total, acc => .ok (acc.reverse, pyRound2 total)
  | it :: rest, total, acc =>
    match bomLineQty it with
    | none => .error ()
    | some qty =>
      price_bom_go prices rest (price_bom_line prices it qty total acc).1
        (price_bom_line prices it qty total acc).2

/-- `price_bom_lines` (app.py:375-398). -/
def price_bom_lines (lines : List RawLine) (prices : String → Option ℚ) :
    Except Unit (List OutLine × ℚ) :=
  price_bom_go prices lines 0 []

/-- Specification of the output line `price_bom_lines` produces for an
input line, `none` when the line is dropped (key not allow-listed). -/
def bomOutSpec (prices : String → Option ℚ) (it : RawLine) : Option OutLine :=
  (keyAllowedVal it.key).map fun k =>
    match lookupPrice prices k with
    | none => ⟨pretty_name k ++ " — UNPRICED", (bomLineQty it).getD 0, it.unit, 0, 0⟩
    | some up =>
      ⟨pretty_name k, pyRound2 ((bomLineQty it).getD 0), it.unit, pyRound2 up,
        pyRound2 ((bomLineQty it).getD 0 * up)⟩

/-- The contribution of an input line to the running total of
`price_bom_lines`. -/
def bomContribution (prices : String → Option ℚ) (it : RawLine) : ℚ :=
  match keyAllowedVal it.key with
  | some k =>
    match lookupPrice prices k with
    | some up => (bomLineQty it).getD 0 * up
    | none => 0
  | none => 0

theorem flushRun_mem {run : List Char} {rest : List RTok} {t : RTok}
    (h : t ∈ flushRun run rest) : t = RTok.num run.reverse ∨ t ∈ rest := by
  unfold flushRun at h
  split at h
  · exact Or.inr h
  · rcases List.mem_cons.mp h with h | h
    · exact Or.inl h
    · exact Or.inr h

theorem scanAux_all_num (l : List Char) :
    ∀ run : List Char, (∀ c ∈ l, numChar c || pyIsSpace c) →
      ∀ t ∈ scanAux run l, ∃ r, t = RTok.num r := by
  induction l with
  | nil =>
    intro run _ t ht
    rw [scanAux] at ht
    rcases flushRun_mem ht with h | h
    · exact ⟨_, h⟩
    · simp at h
  | cons c cs ih =>
    intro run h t ht
    have hc := h c (List.mem_cons_self c cs)
    have hrest : ∀ d ∈ cs, numChar d || pyIsSpace d :=
      fun d hd => h d (List.mem_cons_of_mem c hd)
    rw [scanAux] at ht
    by_cases hnum : numChar c
    · rw [if_pos hnum] at ht
      exact ih (c :: run) hrest t ht
    · have hsp : pyIsSpace c = true := by
        rcases Bool.or_eq_true_iff.mp hc with h1 | h1
        · exact absurd h1 hnum
        · exact h1
      rw [if_neg hnum, if_pos hsp] at ht
      rcases flushRun_mem ht with h1 | h1
      · exact ⟨_, h1⟩
      · exact ih [] hrest t h1

theorem evalToks_nil : evalToks [] = none := rfl

theorem evalToks_single (q : ℚ) : evalToks [ATok.num q] = some q := rfl

theorem evalToks_two_num (p q : ℚ) (l : List ATok) :
    evalToks (ATok.num p :: ATok.num q :: l) = none := rfl

theorem pyEvalNumTok_floatTok {r : List Char} {v : ℚ}
    (h : pyEvalNumTok r = some v) : pyFloatTok r = some v := by
  unfold pyEvalNumTok at h
  split at h
  · exact h
  · exact absurd h (by simp)

theorem evalArith_no_op (l : List Char) (v : ℚ)
    (hchars : ∀ c ∈ l, numChar c || pyIsSpace c)
    (heval : evalArith l = some v) :
    ∃ r, scanAux [] l = [RTok.num r] ∧ pyFloatTok r = some v := by
  obtain ⟨as, hts, hev⟩ : ∃ as, toATok (scanAux [] l) = some as ∧ evalToks as = some v := by
    unfold evalArith at heval
    cases h : toATok (scanAux [] l) with
    | none => rw [h] at heval; simp at heval
    | some as => rw [h] at heval; exact ⟨as, rfl, heval⟩
  have hall := scanAux_all_num l [] hchars
  cases hscan : scanAux [] l with
  | nil =>
    rw [hscan] at hts
    simp only [toATok, Option.some.injEq] at hts
    rw [← hts] at hev
    rw [evalToks_nil] at hev
    exact absurd hev (by simp)
  | cons t ts =>
    obtain ⟨r, rfl⟩ := hall t (hscan ▸ List.mem_cons_self t ts)
    cases ts with
    | nil =>
      rw [hscan] at hts
      cases hq : pyEvalNumTok r with
      | none => simp [toATok, hq] at hts
      | some q =>
        simp only [toATok, hq] at hts
        rw [Option.some.injEq] at hts
        rw [← hts] at hev
        rw [evalToks_single] at hev
        exact ⟨r, rfl, (pyEvalNumTok_floatTok hq).trans hev⟩
    | cons t2 ts2 =>
      obtain ⟨r2, rfl⟩ := hall t2 (hscan ▸ List.mem_cons_of_mem _ (List.mem_cons_self t2 ts2))
      rw [hscan] at hts
      cases hq : pyEvalNumTok r with
      | none => simp [toATok, hq] at hts
      | some q =>
        cases hq2 : pyEvalNumTok r2 with
        | none => simp [toATok, hq, hq2] at hts
        | some q2 =>
          cases hrest : toATok ts2 with
          | none => simp [toATok, hq, hq2, hrest] at hts
          | some as2 =>
            simp only [toATok, hq, hq2, hrest, Option.some.injEq] at hts
            rw [← hts] at hev
            rw [evalToks_two_num] at hev
            exact absurd hev (by simp)

/-- C1: for a price string drawn from digits, dots, whitespace and the
operators `+ - * /` that evaluates as an arithmetic expression, `to_float`
returns the evaluated result; a string with an embedded currency token
such as `"$1,090.00"` has the symbols stripped and yields `1090.0`; and
a string with nothing numeric yields no value. -/
theorem C1_to_float_formula (s : String) (v : ℚ)
    (hchars : formulaChars (stripPrice s) = true)
    (heval : evalArith (stripPrice s).data = some v) :
    to_float s = .ok (some v) ∧
    to_float "$1,090.00" = .ok (some 1090) ∧
    to_float "N/A" = .ok none := by
  refine ⟨?_, ?_, ?_⟩
  · simp only [to_float]
    by_cases hop : hasOpChar (stripPrice s) = true
    · have hbr : toFloatEvalBranch (stripPrice s) = some v := by
        unfold toFloatEvalBranch
        rw [hop, hchars]
        simpa using heval
      rw [hbr]
    · have hnc : ∀ c ∈ (stripPrice s).data, numChar c || pyIsSpace c := by
        intro c hc
        have h1 := List.all_eq_true.mp (Bool.and_eq_true_iff.mp hchars).2 c hc
        have h2 : ¬(c = '/' || c = '*' || c = '+' || c = '-') = true := by
          intro hcontra
          exact hop (List.any_eq_true.mpr ⟨c, hc, hcontra⟩)
        simp only [Bool.or_eq_true, decide_eq_true_eq] at h1 h2 ⊢
        tauto
      obtain ⟨r, hscan, htok⟩ := evalArith_no_op _ v hnc heval
      have hbr : toFloatEvalBranch (stripPrice s) = none := by
        unfold toFloatEvalBranch
        rw [Bool.not_eq_true] at hop
        rw [hop]
        simp
      rw [hbr]
      simp [findallNum, hscan, htok]
  · simp [to_float, stripPrice, pyStrip, pyStripList, removeChar, removeSubstr,
      toFloatEvalBranch, hasOpChar, formulaChars, numChar, pyIsSpace, evalArith,
      scanAux, flushRun, toATok, pyEvalNumTok, validIntTok, pyFloatTok, ratOfParts, digitsVal, evalToks,
      parseA, parseM, parseU, parseACont, parseMCont, findallNum]
  · simp [to_float, stripPrice, pyStrip, pyStripList, removeChar, removeSubstr,
      toFloatEvalBranch, hasOpChar, formulaChars, numChar, pyIsSpace, evalArith,
      scanAux, flushRun, toATok, pyEvalNumTok, validIntTok, pyFloatTok, ratOfParts, digitsVal, evalToks,
      parseA, parseM, parseU, parseACont, parseMCont, findallNum]

/-- Witness for C1 at the concrete formula `"2+3*4"`. -/
theorem C1_to_float_formula_witness :
    to_float "2+3*4" = .ok (some 14) ∧
    to_float "$1,090.00" = .ok (some 1090) ∧
    to_float "N/A" = .ok none :=
  C1_to_float_formula "2+3*4" 14
    (by
      simp [stripPrice, pyStrip, pyStripList, removeChar, removeSubstr,
        formulaChars, numChar, pyIsSpace])
    (by
      simp [stripPrice, pyStrip, pyStripList, removeChar, removeSubstr,
        pyIsSpace, evalArith, scanAux, flushRun, toATok, pyEvalNumTok, validIntTok, pyFloatTok,
        ratOfParts, digitsVal, numChar, evalToks, parseA, parseM, parseU,
        parseACont, parseMCont]
      norm_num)

/-- C1 counterexample: the spec's example value is wrong: `"390*1.308"`
evaluates to `510.12`, not `494.52`. -/
theorem C1_example_value_counterexample :
    to_float "390*1.308" = .ok (some 510.12) ∧ (510.12 : ℚ) ≠ 494.52 := by
  constructor
  · simp [to_float, stripPrice, pyStrip, pyStripList, removeChar, removeSubstr,
      toFloatEvalBranch, hasOpChar, formulaChars, numChar, pyIsSpace, evalArith,
      scanAux, flushRun, toATok, pyEvalNumTok, validIntTok, pyFloatTok, ratOfParts, digitsVal, evalToks,
      parseA, parseM, parseU, parseACont, parseMCont, findallNum]
    norm_num
  · norm_num

/-- C10 (amended): `to_float` terminates on every input, and it raises
(`.error ()`) exactly when the formula branch yields nothing and the
last number-like token of the cleaned string is not a valid float
literal; on every other input it returns a value or `None`. -/
theorem C10_to_float_error_iff (s : String) :
    to_float s = .error () ↔
      toFloatEvalBranch (stripPrice s) = none ∧
      ∃ r, (findallNum (stripPrice s).data).getLast? = some r ∧ pyFloatTok r = none := by
  simp only [to_float]
  cases hbr : toFloatEvalBranch (stripPrice s) with
  | some v => simp
  | none =>
    cases hlast : (findallNum (stripPrice s).data).getLast? with
    | none => simp
    | some r =>
      cases htok : pyFloatTok r with
      | some v => simp [htok]
      | none => simp [htok]

/-- C10 counterexample: `to_float` is not total: it raises `ValueError`
on `"v1.2.3"` (last token `1.2.3`) and on `"."` (last token `.`). -/
theorem C10_to_float_raises_counterexample :
    to_float "v1.2.3" = .error () ∧ to_float "." = .error () := by
  constructor <;>
    simp [to_float, stripPrice, pyStrip, pyStripList, removeChar, removeSubstr,
      toFloatEvalBranch, hasOpChar, formulaChars, numChar, pyIsSpace, evalArith,
      scanAux, flushRun, toATok, pyEvalNumTok, validIntTok, pyFloatTok, ratOfParts, digitsVal, evalToks,
      parseA, parseM, parseU, parseACont, parseMCont, findallNum]

/-- C3: a rebar row with no length columns and no explicit or implicit
length in its text is priced per 19 ft stick: per-meter price is
`P / (19 × 0.3048)`; and the row `"Rebar 1/2 corr 6m"` at price `P`
computes per-meter price `P / 6`. -/
theorem C3_rebar_per_meter (name : String) (price : ℚ)
    (hnolen : parse_length (pyToUpper name) = none) :
    rebar_per_m name price none none none = price / (19 * 0.3048) ∧
    ∀ p : ℚ, rebar_per_m "Rebar 1/2 corr 6m" p none none none = p / 6 := by
  constructor
  · unfold rebar_per_m
    simp only [truthyQ, truthyS, hnolen, pyOrQ, pyOrS, Option.elim]
    simp [per_meter, truthyQ, truthyS, pyToLower, startsWithL, Char.toLower,
      DEFAULT_19FT_M, FT_TO_M]
  · intro p
    have h6 : parse_length (pyToUpper "Rebar 1/2 corr 6m") = some (6, "m") := by
      simp [parse_length, pyToUpper, searchNumUnit, attemptNumUnit, unitWordAt,
        boundaryAfter, headIsWord, wordChar, pyIsSpace, ratOfParts, digitsVal]
    unfold rebar_per_m
    simp only [truthyQ, truthyS, pyOrQ, pyOrS, Option.elim, h6]
    simp [per_meter, truthyQ, truthyS, pyToLower, startsWithL, Char.toLower]

/-- Witness for C3: a rebar row `"Rebar corr"` (no length anywhere) at
price 100 is priced per 19 ft stick, and `"Rebar 1/2 corr 6m"` at 12
gives 2 per meter. -/
theorem C3_rebar_per_meter_witness :
    rebar_per_m "Rebar corr" 100 none none none = 100 / (19 * 0.3048) ∧
    rebar_per_m "Rebar 1/2 corr 6m" 12 none none none = 2 := by
  have h := C3_rebar_per_meter "Rebar corr" 100
    (by
      simp [parse_length, pyToUpper, searchNumUnit, attemptNumUnit, unitWordAt,
        boundaryAfter, headIsWord, wordChar, pyIsSpace, searchImplicit,
        attemptImplicit, lookaheadMM, startsWithL])
  refine ⟨h.1, ?_⟩
  rw [h.2 12]
  norm_num

/-- C4 (code bug): the building-materials row `"Z Purlin 2x4x20"` at
price 380 is stored as `purlin_z_m = 380`, not `380 / (20 × 0.3048)`:
`parse_length` uppercases the text and then searches for a lowercase
`x`, so the implicit `NxMxL` length (its own docstring example) never
matches and the per-stick price is kept unconverted. -/
theorem C4_purlin_implicit_length_bug :
    load_building_row "Z Purlin 2x4x20" 380 = some ("purlin_z_m", 380) ∧
    parse_length (pyToUpper "Z Purlin 2x4x20") = none ∧
    (380 : ℚ) ≠ 380 / (20 * 0.3048) := by
  refine ⟨?_, ?_, by norm_num⟩
  · simp [load_building_row, pyToUpper, containsSub, startsWithL, parse_length,
      searchNumUnit, attemptNumUnit, unitWordAt, boundaryAfter, headIsWord,
      wordChar, pyIsSpace, ratOfParts, digitsVal, searchImplicit,
      attemptImplicit, lookaheadMM]
  · simp [parse_length, pyToUpper, searchNumUnit, attemptNumUnit, unitWordAt,
      boundaryAfter, headIsWord, wordChar, pyIsSpace, ratOfParts, digitsVal,
      searchImplicit, attemptImplicit, lookaheadMM, startsWithL]

/-- C8 (amended): `compute_delivery_fee_km` implements
`round(base + max(0, d − free) × per_km, 2)` — at or inside the free
radius the fee is the rounded base fee — but the `/api/delivery-quote`
endpoint computes `round(base + per_km × d, 2)`, which agrees with the
formula only for a zero free radius. -/
theorem C8_delivery_fee_formula (base per free d : ℚ) :
    (d ≤ free → compute_delivery_fee_km base per free d = pyRound2 base) ∧
    (free ≤ d → compute_delivery_fee_km base per free d = pyRound2 (base + (d - free) * per)) ∧
    (0 ≤ d → delivery_quote_fee base per d = compute_delivery_fee_km base per 0 d) := by
  refine ⟨fun h => ?_, fun h => ?_, fun h => ?_⟩
  · unfold compute_delivery_fee_km
    rw [max_eq_left (by linarith : d - free ≤ 0), zero_mul, add_zero]
  · unfold compute_delivery_fee_km
    rw [max_eq_right (by linarith : (0 : ℚ) ≤ d - free)]
  · unfold compute_delivery_fee_km delivery_quote_fee
    rw [sub_zero, max_eq_right h, mul_comm]

/-- Witness for C8 at base 50, per-km 5, free radius 5. -/
theorem C8_delivery_fee_formula_witness :
    compute_delivery_fee_km 50 5 5 5 = pyRound2 50 ∧
    delivery_quote_fee 50 5 4 = compute_delivery_fee_km 50 5 0 4 :=
  ⟨(C8_delivery_fee_formula 50 5 5 5).1 (by norm_num),
   (C8_delivery_fee_formula 50 5 5 4).2.2 (by norm_num)⟩

/-- C8 counterexample: at a distance exactly equal to the free radius
(5 km, base 50, 5/km), the quote endpoint returns 75 while the claimed
formula gives the base fee 50. -/
theorem C8_quote_free_radius_counterexample :
    delivery_quote_fee 50 5 5 = 75 ∧
    pyRound2 (50 + max 0 ((5 : ℚ) - 5) * 5) = 50 ∧ (75 : ℚ) ≠ 50 := by
  refine ⟨?_, ?_, by norm_num⟩
  · norm_num [delivery_quote_fee, pyRound2, pyRoundHalfEven]
  · norm_num [pyRound2, pyRoundHalfEven]

/-- C5: `to_yd3` returns `q` for `yd3`, `q / 0.764555` for `m3`,
`q / bagsPerYd3` for bag units when the product normalises to sand,
gravel or sharp_sand, and `0` for bag units with any other product and
for every other unit; 4 bags of sand at 20 bags/yd³ give 0.2 yd³. -/
theorem C5_to_yd3_cases (B q : ℚ) (u : String) (p : Option String) :
    to_yd3 B q (some "yd3") p = q ∧
    to_yd3 B q (some "m3") p = q / 0.764555 ∧
    ((normalize_material_name (p.getD "") = "sand" ∨
      normalize_material_name (p.getD "") = "gravel" ∨
      normalize_material_name (p.getD "") = "sharp_sand") →
        to_yd3 B q (some "bag") p = q / B ∧ to_yd3 B q (some "bags") p = q / B) ∧
    (¬(normalize_material_name (p.getD "") = "sand" ∨
       normalize_material_name (p.getD "") = "gravel" ∨
       normalize_material_name (p.getD "") = "sharp_sand") →
        to_yd3 B q (some "bag") p = 0 ∧ to_yd3 B q (some "bags") p = 0) ∧
    (pyToLower (pyStrip u) ∉ (["yd3", "m3", "bag", "bags"] : List String) →
        to_yd3 B q (some u) p = 0) ∧
    to_yd3 20 4 (some "bags") (some "sand") = 0.2 := by
  refine ⟨?_, ?_, fun h => ⟨?_, ?_⟩, fun h => ⟨?_, ?_⟩, fun h => ?_, ?_⟩
  · simp [to_yd3, pyToLower, pyStrip, pyStripList, pyIsSpace]
  · simp [to_yd3, pyToLower, pyStrip, pyStripList, pyIsSpace]
  · rcases h with h | h | h <;>
      simp [to_yd3, pyToLower, pyStrip, pyStripList, pyIsSpace, h, div_eq_mul_inv]
  · rcases h with h | h | h <;>
      simp [to_yd3, pyToLower, pyStrip, pyStripList, pyIsSpace, h, div_eq_mul_inv]
  · push_neg at h
    obtain ⟨h1, h2, h3⟩ := h
    simp [to_yd3, pyToLower, pyStrip, pyStripList, pyIsSpace, h1, h2, h3]
  · push_neg at h
    obtain ⟨h1, h2, h3⟩ := h
    simp [to_yd3, pyToLower, pyStrip, pyStripList, pyIsSpace, h1, h2, h3]
  · simp only [List.mem_cons, List.mem_singleton, not_or] at h
    obtain ⟨h1, h2, h3, h4⟩ := h
    simp [to_yd3, h1, h2, h3, h4]
  · simp [to_yd3, pyToLower, pyStrip, pyStripList, pyIsSpace,
      normalize_material_name, strContains, containsSub]
    norm_num

/-- Witness for C5: concrete conversions at 20 bags/yd³. -/
theorem C5_to_yd3_cases_witness :
    to_yd3 20 4 (some "yd3") (some "cement") = 4 ∧
    to_yd3 20 4 (some "bag") (some "sand") = 4 / 20 ∧
    to_yd3 20 4 (some "bag") (some "cement") = 0 ∧
    to_yd3 20 4 (some "pcs") (some "cement") = 0 := by
  have hsand : normalize_material_name ((some "sand").getD "") = "sand" := by
    simp [normalize_material_name, pyToLower, pyStrip, pyStripList, pyIsSpace,
      strContains, containsSub]
  have hcem : normalize_material_name ((some "cement").getD "") = "other" := by
    simp [normalize_material_name, pyToLower, pyStrip, pyStripList, pyIsSpace,
      strContains, containsSub]
  refine ⟨(C5_to_yd3_cases 20 4 "pcs" (some "cement")).1,
    ((C5_to_yd3_cases 20 4 "pcs" (some "sand")).2.2.1 (Or.inl hsand)).1,
    ((C5_to_yd3_cases 20 4 "pcs" (some "cement")).2.2.2.1 (by rw [hcem]; simp)).1,
    (C5_to_yd3_cases 20 4 "pcs" (some "cement")).2.2.2.2.1 (by
      simp [pyToLower, pyStrip, pyStripList, pyIsSpace])⟩

theorem loaderMinFold (l : List ℚ) :
    ∀ a : ℚ, a ≤ 10 ^ 18 → (∀ p ∈ l, p ≤ 10 ^ 18) →
      ∃ m, l.foldl loaderMinStep (some a) = some m ∧ (m = a ∨ m ∈ l) ∧
        m ≤ a ∧ ∀ x ∈ l, m ≤ x := by
  induction l with
  | nil =>
    intro a _ _
    exact ⟨a, rfl, Or.inl rfl, le_refl a, by simp⟩
  | cons p rest ih =>
    intro a ha hl
    have hstep : loaderMinStep (some a) p = some (min a p) := rfl
    obtain ⟨m, hm, hmem, hle, hall⟩ :=
      ih (min a p) (le_trans (min_le_left a p) ha)
        (fun x hx => hl x (List.mem_cons_of_mem p hx))
    refine ⟨m, ?_, ?_, ?_, ?_⟩
    · rw [List.foldl_cons, hstep]; exact hm
    · rcases hmem with h | h
      · rcases min_choice a p with hmin | hmin
        · exact Or.inl (by rw [h, hmin])
        · exact Or.inr (by rw [h, hmin]; exact List.mem_cons_self p rest)
      · exact Or.inr (List.mem_cons_of_mem p h)
    · exact le_trans hle (min_le_left a p)
    · intro x hx
      rcases List.mem_cons.mp hx with rfl | hx
      · exact le_trans hle (min_le_right a x)
      · exact hall x hx

theorem loaderMinKey_spec (l : List ℚ) (hl : ∀ p ∈ l, p ≤ 10 ^ 18) (hne : l ≠ []) :
    ∃ m, loaderMinKey l = some m ∧ m ∈ l ∧ ∀ x ∈ l, m ≤ x := by
  cases l with
  | nil => exact absurd rfl hne
  | cons p rest =>
    have hp : p ≤ 10 ^ 18 := hl p (List.mem_cons_self p rest)
    have h0 : loaderMinStep none p = some p := by
      simp [loaderMinStep, min_eq_right hp]
    obtain ⟨m, hm, hmem, hle, hall⟩ :=
      loaderMinFold rest p hp (fun x hx => hl x (List.mem_cons_of_mem p hx))
    refine ⟨m, ?_, ?_, ?_⟩
    · unfold loaderMinKey
      rw [List.foldl_cons, h0]
      exact hm
    · rcases hmem with h | h
      · exact h ▸ List.mem_cons_self p rest
      · exact List.mem_cons_of_mem p h
    · intro x hx
      rcases List.mem_cons.mp hx with rfl | hx
      · exact hle
      · exact hall x hx

theorem lastFold (l : List ℚ) :
    ∀ a : Option ℚ, l.foldl (fun _ p => some p) a = l.getLast?.elim a some := by
  induction l with
  | nil => intro a; rfl
  | cons p rest ih =>
    intro a
    rw [List.foldl_cons]
    rw [ih (some p)]
    cases rest with
    | nil => rfl
    | cons q rest2 =>
      rw [List.getLast?_cons_cons]
      cases hgl : (q :: rest2).getLast? with
      | none => exact absurd (List.getLast?_eq_none_iff.mp hgl) (List.cons_ne_nil q rest2)
      | some z => rfl

theorem aggLastKey_eq (l : List ℚ) : aggLastKey l = l.getLast? := by
  unfold aggLastKey
  rw [lastFold l none]
  cases l.getLast? <;> rfl

theorem mergeStep_spec {o v : Option ℚ} {P Q : List ℚ}
    (ho : OptMinSpec o P) (hv : OptMinSpec v Q) : OptMinSpec (mergeStep o v) (P ++ Q) := by
  rcases ho with ⟨rfl, rfl⟩ | ⟨m, rfl, hm, hall⟩ <;>
    rcases hv with ⟨rfl, rfl⟩ | ⟨n, rfl, hn, hnall⟩
  · exact Or.inl ⟨rfl, rfl⟩
  · exact Or.inr ⟨n, rfl, by simpa using hn, by simpa using hnall⟩
  · exact Or.inr ⟨m, rfl, by simpa using hm, by simpa using hall⟩
  · refine Or.inr ⟨min m n, rfl, ?_, ?_⟩
    · rcases min_choice m n with h | h
      · exact List.mem_append.mpr (Or.inl (by rw [h]; exact hm))
      · exact List.mem_append.mpr (Or.inr (by rw [h]; exact hn))
    · intro x hx
      rcases List.mem_append.mp hx with hx | hx
      · exact le_trans (min_le_left m n) (hall x hx)
      · exact le_trans (min_le_right m n) (hnall x hx)

theorem pipelineKey_spec (agg steel bld : List ℚ)
    (hs : ∀ x ∈ steel, x ≤ 10 ^ 18) (hb : ∀ x ∈ bld, x ≤ 10 ^ 18) :
    OptMinSpec (pipelineKey agg steel bld) (agg.getLast?.toList ++ steel ++ bld) := by
  have h1 : OptMinSpec (aggLastKey agg) agg.getLast?.toList := by
    rw [aggLastKey_eq]
    cases agg.getLast? with
    | none => exact Or.inl ⟨rfl, rfl⟩
    | some z => exact Or.inr ⟨z, rfl, by simp, by simp⟩
  have h2 : OptMinSpec (loaderMinKey steel) steel := by
    by_cases h : steel = []
    · subst h; exact Or.inl ⟨rfl, rfl⟩
    · obtain ⟨m, hm, hmem, hall⟩ := loaderMinKey_spec steel hs h
      exact Or.inr ⟨m, hm, hmem, hall⟩
  have h3 : OptMinSpec (loaderMinKey bld) bld := by
    by_cases h : bld = []
    · subst h; exact Or.inl ⟨rfl, rfl⟩
    · obtain ⟨m, hm, hmem, hall⟩ := loaderMinKey_spec bld hb h
      exact Or.inr ⟨m, hm, hmem, hall⟩
  have h0 : OptMinSpec none ([] : List ℚ) := Or.inl ⟨rfl, rfl⟩
  have := mergeStep_spec (mergeStep_spec (mergeStep_spec h0 h1) h2) h3
  simpa [pipelineKey, merge_prices_key] using this

/-- C2 (amended): across the steel and building loaders and the
`merge_prices` merge, the stored price of a key is the minimum of all
candidate prices (for candidates up to the `1e18` sentinel), and
reordering the steel or building rows does not change it; the
aggregates loader, however, contributes only the LAST price of its
file for the key (later duplicate rows overwrite earlier ones). -/
theorem C2_min_price_merge (agg steel bld : List ℚ)
    (hs : ∀ x ∈ steel, x ≤ 10 ^ 18) (hb : ∀ x ∈ bld, x ≤ 10 ^ 18)
    (hne : agg.getLast?.toList ++ steel ++ bld ≠ []) :
    (∃ m, pipelineKey agg steel bld = some m ∧
       m ∈ agg.getLast?.toList ++ steel ++ bld ∧
       ∀ x ∈ agg.getLast?.toList ++ steel ++ bld, m ≤ x) ∧
    ∀ steel' bld', steel.Perm steel' → bld.Perm bld' →
      pipelineKey agg steel bld = pipelineKey agg steel' bld' := by
  rcases pipelineKey_spec agg steel bld hs hb with ⟨_, hemp⟩ | ⟨m, hm, hmem, hall⟩
  · exact absurd hemp hne
  refine ⟨⟨m, hm, hmem, hall⟩, ?_⟩
  intro steel' bld' hps hpb
  have hs' : ∀ x ∈ steel', x ≤ 10 ^ 18 := fun x hx => hs x (hps.mem_iff.mpr hx)
  have hb' : ∀ x ∈ bld', x ≤ 10 ^ 18 := fun x hx => hb x (hpb.mem_iff.mpr hx)
  rcases pipelineKey_spec agg steel' bld' hs' hb' with ⟨hnone, hemp'⟩ | ⟨m', hm', hmem', hall'⟩
  · obtain ⟨h12, h3⟩ := List.append_eq_nil.mp hemp'
    obtain ⟨h1, h2⟩ := List.append_eq_nil.mp h12
    have hsteel : steel = [] := (h2 ▸ hps).eq_nil
    have hbld : bld = [] := (h3 ▸ hpb).eq_nil
    exact absurd (by rw [h1, hsteel, hbld]; rfl) hne
  · rw [hm, hm']
    have hmem2 : m' ∈ agg.getLast?.toList ++ steel ++ bld := by
      rcases List.mem_append.mp hmem' with h12 | h3
      · rcases List.mem_append.mp h12 with h1 | h2
        · exact List.mem_append.mpr (Or.inl (List.mem_append.mpr (Or.inl h1)))
        · exact List.mem_append.mpr (Or.inl (List.mem_append.mpr (Or.inr (hps.mem_iff.mpr h2))))
      · exact List.mem_append.mpr (Or.inr (hpb.mem_iff.mpr h3))
    have hmem1 : m ∈ agg.getLast?.toList ++ steel' ++ bld' := by
      rcases List.mem_append.mp hmem with h12 | h3
      · rcases List.mem_append.mp h12 with h1 | h2
        · exact List.mem_append.mpr (Or.inl (List.mem_append.mpr (Or.inl h1)))
        · exact List.mem_append.mpr (Or.inl (List.mem_append.mpr (Or.inr (hps.mem_iff.mp h2))))
      · exact List.mem_append.mpr (Or.inr (hpb.mem_iff.mp h3))
    exact congrArg some (le_antisymm (hall m' hmem2) (hall' m hmem1))

/-- Witness for C2: candidates 7 (aggregates), 9 and 4 (steel), 6
(building) merge to the minimum 4. -/
theorem C2_min_price_merge_witness :
    pipelineKey [7] [9, 4] [6] = some 4 ∧
    pipelineKey [7] [9, 4] [6] = pipelineKey [7] [4, 9] [6] := by
  have h := C2_min_price_merge [7] [9, 4] [6]
    (by intro x hx; rcases List.mem_cons.mp hx with rfl | hx; · norm_num
        rcases List.mem_cons.mp hx with rfl | hx; · norm_num
        simp at hx)
    (by intro x hx; rcases List.mem_cons.mp hx with rfl | hx; · norm_num
        simp at hx)
    (by simp)
  obtain ⟨⟨m, hm, hmem, hall⟩, hperm⟩ := h
  have hm4 : m = 4 := by
    have h1 : m ≤ 4 := hall 4 (by simp)
    have h2 : (4 : ℚ) ≤ m := by
      have hd : m = 7 ∨ m = 9 ∨ m = 4 ∨ m = 6 := by
        simpa [List.getLast?_singleton] using hmem
      rcases hd with rfl | rfl | rfl | rfl <;> norm_num
    linarith
  exact ⟨hm4 ▸ hm, hperm [4, 9] [6] (List.Perm.swap 4 9 []) (List.Perm.refl [6])⟩

/-- C2 counterexample: two aggregates rows for the same key priced 5
then 10 end with the price 10 (last wins), although the minimum of the
candidates is 5; and a single steel/building candidate above the
sentinel `1e18` is clamped to the sentinel. -/
theorem C2_dedup_counterexample :
    pipelineKey [5, 10] [] [] = some 10 ∧ (5 : ℚ) ∈ ([5, 10] : List ℚ) ∧
    ¬ (10 : ℚ) ≤ 5 ∧
    loaderMinKey [2 * 10 ^ 18] = some (10 ^ 18) ∧ (10 ^ 18 : ℚ) ≠ 2 * 10 ^ 18 := by
  refine ⟨?_, by simp, by norm_num, ?_, by norm_num⟩
  · simp [pipelineKey, merge_prices_key, mergeStep, aggLastKey, loaderMinKey]
  · simp [loaderMinKey, loaderMinStep]

theorem purchaseContributes_iff (B : ℚ) (p : String) (l : PurchaseLine) :
    purchaseContributes B p l = true ↔
      purchaseProduct l = p ∧ p ≠ "other" ∧
        0 < to_yd3 B l.quantity l.unit (some (purchaseProduct l)) := by
  simp [purchaseContributes, Bool.and_eq_true, decide_eq_true_eq, and_assoc]

theorem wavcFold_lookup (B : ℚ) (p : String) (lines : List PurchaseLine) :
    ∀ t0 : String → Option (ℚ × ℚ),
      lines.foldl (wavcStep B) t0 p =
        if lines.filter (purchaseContributes B p) = [] then t0 p
        else some (((t0 p).getD (0, 0)).1 + purchaseVol B p lines,
          ((t0 p).getD (0, 0)).2 + purchaseCost B p lines) := by
  induction lines with
  | nil => intro t0; simp
  | cons l rest ih =>
    intro t0
    rw [List.foldl_cons]
    by_cases h1 : purchaseProduct l = "other"
    · have hnc : purchaseContributes B p l = false := by
        rw [Bool.eq_false_iff]
        intro hc
        obtain ⟨hprod, hpo, _⟩ := (purchaseContributes_iff B p l).mp hc
        exact hpo (hprod ▸ h1)
      have hstep : wavcStep B t0 l = t0 := by
        simp [wavcStep, h1]
      rw [hstep, ih t0]
      simp [purchaseVol, purchaseCost, List.filter_cons, hnc]
    · by_cases h2 : to_yd3 B l.quantity l.unit (some (purchaseProduct l)) ≤ 0
      · have hnc : purchaseContributes B p l = false := by
          rw [Bool.eq_false_iff]
          intro hc
          obtain ⟨_, _, hpos⟩ := (purchaseContributes_iff B p l).mp hc
          exact absurd hpos (not_lt.mpr h2)
        have hstep : wavcStep B t0 l = t0 := by
          simp only [wavcStep, if_neg h1]
          rw [if_pos h2]
        rw [hstep, ih t0]
        simp [purchaseVol, purchaseCost, List.filter_cons, hnc]
      · by_cases h3 : purchaseProduct l = p
        · have hc : purchaseContributes B p l = true :=
            (purchaseContributes_iff B p l).mpr ⟨h3, h3 ▸ h1, lt_of_not_le h2⟩
          rw [h3] at h1 h2
          have hstep : wavcStep B t0 l =
              Function.update t0 p
                (some (((t0 p).getD (0, 0)).1 + to_yd3 B l.quantity l.unit (some p),
                  ((t0 p).getD (0, 0)).2 + purchaseLineCost l)) := by
            simp only [wavcStep, h3, if_neg h1, if_neg h2]
          rw [hstep, ih _]
          simp only [Function.update_same]
          have hv : purchaseVol B p (l :: rest) =
              to_yd3 B l.quantity l.unit (some p) + purchaseVol B p rest := by
            simp [purchaseVol, List.filter_cons, hc, h3]
          have hcst : purchaseCost B p (l :: rest) =
              purchaseLineCost l + purchaseCost B p rest := by
            simp [purchaseCost, List.filter_cons, hc]
          by_cases hrest : rest.filter (purchaseContributes B p) = []
          · rw [if_pos hrest]
            have : (l :: rest).filter (purchaseContributes B p) = [l] := by
              simp [List.filter_cons, hc, hrest]
            rw [if_neg (by simp [this])]
            have hv0 : purchaseVol B p rest = 0 := by
              simp [purchaseVol, hrest]
            have hc0 : purchaseCost B p rest = 0 := by
              simp [purchaseCost, hrest]
            rw [hv, hcst, hv0, hc0, add_zero, add_zero]
          · rw [if_neg hrest]
            rw [if_neg (by simp [List.filter_cons, hc])]
            simp only [Option.getD_some]
            rw [hv, hcst]
            ring_nf
        · have hnc : purchaseContributes B p l = false := by
            rw [Bool.eq_false_iff]
            intro hcc
            exact h3 ((purchaseContributes_iff B p l).mp hcc).1
          have hupd : (wavcStep B t0 l) p = t0 p := by
            simp only [wavcStep, if_neg h1, if_neg h2]
            exact Function.update_noteq (fun h => h3 h.symm) _ t0
          rw [ih _]
          by_cases hrest : rest.filter (purchaseContributes B p) = []
          · simp [List.filter_cons, hnc, hrest, hupd]
          · simp [List.filter_cons, hnc, hrest, hupd, purchaseVol, purchaseCost]

theorem wavcTotals_eq (B : ℚ) (p : String) (lines : List PurchaseLine) :
    wavcTotals B lines p =
      if lines.filter (purchaseContributes B p) = [] then none
      else some (purchaseVol B p lines, purchaseCost B p lines) := by
  have h := wavcFold_lookup B p lines fun _ => none
  unfold wavcTotals
  rw [h]
  by_cases hf : lines.filter (purchaseContributes B p) = []
  · rw [if_pos hf, if_pos hf]
  · rw [if_neg hf, if_neg hf]
    simp

theorem purchaseVol_pos (B : ℚ) (p : String) (lines : List PurchaseLine)
    (h : lines.filter (purchaseContributes B p) ≠ []) :
    0 < purchaseVol B p lines := by
  apply List.sum_pos
  · intro x hx
    obtain ⟨l, hl, rfl⟩ := List.mem_map.mp hx
    obtain ⟨hprod, _, hpos⟩ :=
      (purchaseContributes_iff B p l).mp (List.of_mem_filter hl)
    rw [← hprod]
    exact hpos
  · intro hmap
    exact h (List.map_eq_nil_iff.mp hmap)

theorem weighted_avg_cost_eq (B : ℚ) (purch : List PurchaseLine) (p : String) :
    weighted_avg_cost B purch p =
      if purch.filter (purchaseContributes B p) = [] then none
      else some (purchaseCost B p purch / purchaseVol B p purch) := by
  unfold weighted_avg_cost
  rw [wavcTotals_eq]
  by_cases h : purch.filter (purchaseContributes B p) = []
  · rw [if_pos h, if_pos h]
  · rw [if_neg h, if_neg h]
    simp [purchaseVol_pos B p purch h]

theorem salesFold_lookup (B : ℚ) (p : String) (hp : p ≠ "other")
    (lines : List SalesLine) :
    ∀ t0 : String → Option (ℚ × ℚ × ℚ),
      lines.foldl (salesStep B) t0 p =
        if lines.filter (fun l => salesProduct l = p) = [] then t0 p
        else some (((t0 p).getD (0, 0, 0)).1 + salesVol B p lines,
          ((t0 p).getD (0, 0, 0)).2.1 + salesBagVol B p lines,
          ((t0 p).getD (0, 0, 0)).2.2 + salesRevenue p lines) := by
  induction lines with
  | nil => intro t0; simp
  | cons l rest ih =>
    intro t0
    rw [List.foldl_cons]
    by_cases h1 : salesProduct l = "other"
    · have hnp : ¬ salesProduct l = p := fun h => hp (h ▸ h1)
      have hstep : salesStep B t0 l = t0 := by
        simp [salesStep, h1]
      rw [hstep, ih t0]
      simp [salesVol, salesBagVol, salesRevenue, List.filter_cons, hnp]
    · by_cases h2 : salesProduct l = p
      · have hstep : salesStep B t0 l =
            Function.update t0 p
              (some (((t0 p).getD (0, 0, 0)).1 + salesLineVol B l,
                ((t0 p).getD (0, 0, 0)).2.1 + salesLineBagVol B l,
                ((t0 p).getD (0, 0, 0)).2.2 + salesLineRevenue l)) := by
          simp only [salesStep, h2, if_neg hp]
        rw [hstep, ih _]
        simp only [Function.update_same]
        have hv : salesVol B p (l :: rest) = salesLineVol B l + salesVol B p rest := by
          simp [salesVol, List.filter_cons, h2]
        have hbv : salesBagVol B p (l :: rest) =
            salesLineBagVol B l + salesBagVol B p rest := by
          simp [salesBagVol, List.filter_cons, h2]
        have hrv : salesRevenue p (l :: rest) =
            salesLineRevenue l + salesRevenue p rest := by
          simp [salesRevenue, List.filter_cons, h2]
        by_cases hrest : rest.filter (fun l => salesProduct l = p) = []
        · rw [if_pos hrest]
          rw [if_neg (by simp [List.filter_cons, h2])]
          have h01 : salesVol B p rest = 0 := by simp [salesVol, hrest]
          have h02 : salesBagVol B p rest = 0 := by simp [salesBagVol, hrest]
          have h03 : salesRevenue p rest = 0 := by simp [salesRevenue, hrest]
          rw [hv, hbv, hrv, h01, h02, h03, add_zero, add_zero, add_zero]
        · rw [if_neg hrest]
          rw [if_neg (by simp [List.filter_cons, h2])]
          simp only [Option.getD_some]
          rw [hv, hbv, hrv]
          refine congrArg some ?_
          refine Prod.ext ?_ (Prod.ext ?_ ?_) <;> simp <;> ring
      · have hstep : (salesStep B t0 l) p = t0 p := by
          simp only [salesStep, if_neg h1]
          exact Function.update_noteq (fun h => h2 h.symm) _ t0
        rw [ih _]
        rw [hstep]
        simp [salesVol, salesBagVol, salesRevenue, List.filter_cons, h2]

theorem salesTotals_eq (B : ℚ) (p : String) (hp : p ≠ "other")
    (lines : List SalesLine) :
    salesTotals B lines p =
      if lines.filter (fun l => salesProduct l = p) = [] then none
      else some (salesVol B p lines, salesBagVol B p lines, salesRevenue p lines) := by
  have h := salesFold_lookup B p hp lines fun _ => none
  unfold salesTotals
  rw [h]
  by_cases hf : lines.filter (fun l => salesProduct l = p) = []
  · rw [if_pos hf, if_pos hf]
  · rw [if_neg hf, if_neg hf]
    simp

/-- C7: for every product present in the sales of the window, the
gross-profit row satisfies `gp = revenue − (volume × avg-cost +
bag-volume × packaging)` with packaging `= bag cost × bags-per-yard`
applied only to the bag-sold quantities of the aggregate products, and
`margin = gp / revenue × 100`, defined as `0` when revenue is `0`. -/
theorem C7_gross_profit_formula (B bagCost : ℚ) (purch : List PurchaseLine)
    (sales : List SalesLine) (p : String) (hp : p ≠ "other")
    (hpresent : sales.filter (fun l => salesProduct l = p) ≠ []) :
    ∃ row, gpRow B bagCost purch sales p = some row ∧
      row.revenue = salesRevenue p sales ∧
      row.qty_yd3 = salesVol B p sales ∧
      row.avg_cost_yd3 = (weighted_avg_cost B purch p).getD 0 ∧
      row.gp = salesRevenue p sales -
        (salesVol B p sales * (weighted_avg_cost B purch p).getD 0 +
          salesBagVol B p sales *
            (if p = "sand" ∨ p = "gravel" ∨ p = "sharp_sand" then bagCost * B else 0)) ∧
      row.margin = (if 0 < row.revenue then row.gp / row.revenue * 100 else 0) ∧
      (row.revenue = 0 → row.margin = 0) := by
  unfold gpRow
  rw [salesTotals_eq B p hp sales, if_neg hpresent]
  refine ⟨_, rfl, rfl, rfl, rfl, ?_, ?_, ?_⟩
  · have : (if p = "sand" || p = "gravel" || p = "sharp_sand" then bagCost * B else 0) =
        (if p = "sand" ∨ p = "gravel" ∨ p = "sharp_sand" then bagCost * B else 0) := by
      simp [Bool.or_eq_true, decide_eq_true_eq, or_assoc]
    rw [this]
    ring_nf
  · rfl
  · intro h0
    dsimp only at h0 ⊢
    rw [h0]
    simp

/-- Witness for C7: one sales line of 2 yd³ of sand at 50 with no
purchases: revenue 100, avg cost 0, gp 100, margin 100. -/
theorem C7_gross_profit_formula_witness :
    ∃ row, gpRow 20 2 [] [⟨some "sand", none, 2, some "yd3", some 50, none⟩] "sand" =
        some row ∧
      row.revenue = salesRevenue "sand" [⟨some "sand", none, 2, some "yd3", some 50, none⟩] ∧
      row.gp = salesRevenue "sand" [⟨some "sand", none, 2, some "yd3", some 50, none⟩] -
        (salesVol 20 "sand" [⟨some "sand", none, 2, some "yd3", some 50, none⟩] *
            (weighted_avg_cost 20 [] "sand").getD 0 +
          salesBagVol 20 "sand" [⟨some "sand", none, 2, some "yd3", some 50, none⟩] *
            (if "sand" = "sand" ∨ "sand" = "gravel" ∨ "sand" = "sharp_sand"
              then (2 : ℚ) * 20 else 0)) := by
  obtain ⟨row, hrow, hrev, _, _, hgp, _, _⟩ :=
    C7_gross_profit_formula 20 2 [] [⟨some "sand", none, 2, some "yd3", some 50, none⟩]
      "sand" (by simp)
      (by
        simp [List.filter_cons, salesProduct, pyOrS, truthyS,
          normalize_material_name, pyToLower, pyStrip, pyStripList, pyIsSpace,
          strContains, containsSub])
  exact ⟨row, hrow, hrev, hgp⟩

/-- C6 (amended): the weighted average cost of a material with positive
converted purchase volume is total purchase cost over total converted
volume; a material with zero purchased volume has no average cost and
is priced at zero material cost in the gross-profit report, so its
gross profit is its revenue minus only the packaging cost accrued on
bag-sold volume — equal to its revenue exactly when it has no
bag-denominated sales. -/
theorem C6_weighted_avg_and_zero_cost (B bagCost : ℚ) (purch : List PurchaseLine)
    (sales : List SalesLine) (p : String) (hp : p ≠ "other") :
    (0 < purchaseVol B p purch →
      weighted_avg_cost B purch p =
        some (purchaseCost B p purch / purchaseVol B p purch)) ∧
    (purchaseVol B p purch = 0 → weighted_avg_cost B purch p = none) ∧
    (weighted_avg_cost B purch p = none →
      ∀ row, gpRow B bagCost purch sales p = some row →
        row.avg_cost_yd3 = 0 ∧
        row.gp = row.revenue -
          (if p = "sand" ∨ p = "gravel" ∨ p = "sharp_sand" then bagCost * B else 0) *
            salesBagVol B p sales ∧
        (salesBagVol B p sales = 0 → row.gp = row.revenue)) := by
  refine ⟨?_, ?_, ?_⟩
  · intro hpos
    rw [weighted_avg_cost_eq]
    rw [if_neg]
    intro hf
    rw [show purchaseVol B p purch = 0 by simp [purchaseVol, hf]] at hpos
    exact lt_irrefl 0 hpos
  · intro h0
    rw [weighted_avg_cost_eq]
    rw [if_pos]
    by_contra hf
    exact absurd h0 (ne_of_gt (purchaseVol_pos B p purch hf))
  · intro hnone row hrow
    unfold gpRow at hrow
    rw [salesTotals_eq B p hp sales] at hrow
    by_cases hf : sales.filter (fun l => salesProduct l = p) = []
    · rw [if_pos hf] at hrow
      exact absurd hrow (by simp)
    · rw [if_neg hf] at hrow
      rw [Option.some.injEq] at hrow
      subst hrow
      rw [hnone]
      refine ⟨rfl, ?_, ?_⟩
      · dsimp only
        have : (if p = "sand" || p = "gravel" || p = "sharp_sand"
            then bagCost * B else 0) =
            (if p = "sand" ∨ p = "gravel" ∨ p = "sharp_sand"
            then bagCost * B else 0) := by
          simp [Bool.or_eq_true, decide_eq_true_eq, or_assoc]
        rw [this]
        simp [Option.getD_none]
      · intro hbag0
        dsimp only
        simp [Option.getD_none, hbag0]

/-- Witness for C6: one purchase of 2 yd³ of sand costing 30 gives an
average cost of 15/yd³; with no purchases the average cost is absent. -/
theorem C6_weighted_avg_and_zero_cost_witness :
    weighted_avg_cost 20 [⟨some "sand", none, none, 2, some "yd3", some 30, none⟩]
        "sand" =
      some (purchaseCost 20 "sand"
          [⟨some "sand", none, none, 2, some "yd3", some 30, none⟩] /
        purchaseVol 20 "sand"
          [⟨some "sand", none, none, 2, some "yd3", some 30, none⟩]) ∧
    weighted_avg_cost 20 [] "sand" = none := by
  have h1 := C6_weighted_avg_and_zero_cost 20 2
    [⟨some "sand", none, none, 2, some "yd3", some 30, none⟩] [] "sand" (by simp)
  have h2 := C6_weighted_avg_and_zero_cost 20 2 [] [] "sand" (by simp)
  refine ⟨h1.1 ?_, h2.2.1 ?_⟩
  · have : purchaseVol 20 "sand"
        [⟨some "sand", none, none, 2, some "yd3", some 30, none⟩] = 2 := by
      simp [purchaseVol, List.filter_cons, purchaseContributes, purchaseProduct,
        pyOrS, truthyS, pyStrip, pyStripList, pyIsSpace, normalize_material_name,
        pyToLower, strContains, containsSub, to_yd3]
    rw [this]
    norm_num
  · simp [purchaseVol]

/-- C6 counterexample: sand sold only in bags (20 bags at 5 each,
revenue 100) with no purchases in the window: the report prices the
material cost at zero but still books 40 of packaging cost, so gross
profit is 60, not the revenue 100. -/
theorem C6_zero_purchase_gp_counterexample :
    gpRow 20 2 [] [⟨some "sand", none, 20, some "bags", some 5, none⟩] "sand" =
      some ⟨"sand", 1, 100, 0, 40, 60, 60⟩ ∧
    weighted_avg_cost 20 [] "sand" = none ∧ (60 : ℚ) ≠ 100 := by
  refine ⟨?_, ?_, by norm_num⟩
  · simp [gpRow, salesTotals, salesStep, salesProduct, salesUnit, salesLineVol,
      salesLineBagVol, salesLineRevenue, pyOrS, truthyS, normalize_material_name,
      pyToLower, pyStrip, pyStripList, pyIsSpace, strContains, containsSub,
      to_yd3, weighted_avg_cost, wavcTotals, Function.update]
    norm_num
  · simp [weighted_avg_cost, wavcTotals]

theorem price_bom_go_spec (prices : String → Option ℚ) (lines : List RawLine) :
    ∀ (total : ℚ) (acc : List OutLine),
      (∀ it ∈ lines, (bomLineQty it).isSome) →
      price_bom_go prices lines total acc =
        .ok (acc.reverse ++ lines.filterMap (bomOutSpec prices),
          pyRound2 (total + (lines.map (bomContribution prices)).sum)) := by
  induction lines with
  | nil => intro total acc _; simp [price_bom_go]
  | cons it rest ih =>
    intro total acc hnum
    obtain ⟨qty, hqty⟩ :=
      Option.isSome_iff_exists.mp (hnum it (List.mem_cons_self it rest))
    have hrest : ∀ x ∈ rest, (bomLineQty x).isSome :=
      fun x hx => hnum x (List.mem_cons_of_mem it hx)
    simp only [price_bom_go, hqty]
    rw [ih _ _ hrest]
    cases hk : keyAllowedVal it.key with
    | none =>
      simp [price_bom_line, hk, List.filterMap_cons, bomOutSpec, bomContribution]
    | some k =>
      cases hlp : lookupPrice prices k with
      | none =>
        simp [price_bom_line, hk, hlp, List.filterMap_cons, bomOutSpec,
          bomContribution, hqty]
      | some up =>
        simp [price_bom_line, hk, hlp, List.filterMap_cons, bomOutSpec,
          bomContribution, hqty]
        ring_nf

/-- C9 (amended): every line surviving `_validate_lines` has an
allow-listed key, a strictly positive quantity and a unit from the
normalised unit set; `price_bom_lines`, by contrast, only filters on
the allow-list — it keeps whatever quantity and unit the line carries
(and raises on a non-numeric quantity): its output is exactly the
per-line image of the allow-listed input lines. -/
theorem C9_validation_guarantees (raw : List (Option RawLine))
    (lines : List RawLine) (prices : String → Option ℚ)
    (hnum : ∀ it ∈ lines, (bomLineQty it).isSome) :
    (∀ cl ∈ validate_lines raw,
       cl.key ∈ ALLOWED_KEYS ∧ 0 < cl.qty ∧ cl.unit ∈ ALLOWED_UNITS) ∧
    price_bom_lines lines prices =
      .ok (lines.filterMap (bomOutSpec prices),
        pyRound2 ((lines.map (bomContribution prices)).sum)) := by
  constructor
  · intro cl hcl
    obtain ⟨it?, hmem, hf⟩ := List.mem_filterMap.mp hcl
    cases it? with
    | none => simp at hf
    | some it =>
      simp only [Option.bind_eq_bind, Option.some_bind] at hf
      cases hk : keyAllowedVal it.key with
      | none => rw [hk] at hf; simp at hf
      | some k =>
        rw [hk] at hf
        cases hq : pyValFloat it.qty with
        | none => rw [hq] at hf; simp at hf
        | some q =>
          rw [hq] at hf
          simp only [Option.some_bind] at hf
          by_cases hq0 : q ≤ 0
          · rw [if_pos hq0] at hf; simp at hf
          · rw [if_neg hq0] at hf
            by_cases hu : ALLOWED_UNITS.contains (norm_unit it.unit) = true
            · rw [if_pos hu, Option.some.injEq] at hf
              subst hf
              refine ⟨?_, lt_of_not_le hq0, ?_⟩
              · cases hkey : it.key with
                | str s =>
                  rw [hkey] at hk
                  simp only [keyAllowedVal] at hk
                  by_cases hcont : ALLOWED_KEYS.contains s = true
                  · rw [if_pos hcont, Option.some.injEq] at hk
                    subst hk
                    exact List.elem_iff.mp hcont
                  · rw [if_neg hcont] at hk; exact absurd hk (by simp)
                | num q2 => rw [hkey] at hk; simp [keyAllowedVal] at hk
                | noneV => rw [hkey] at hk; simp [keyAllowedVal] at hk
              · exact List.elem_iff.mp hu
            · rw [if_neg hu] at hf; simp at hf
  · have h := price_bom_go_spec prices lines 0 [] hnum
    unfold price_bom_lines
    rw [h]
    simp

/-- Witness for C9 on a singleton valid line and a singleton priced line. -/
theorem C9_validation_guarantees_witness :
    (∀ cl ∈ validate_lines [some ⟨.str "cement_bag", .num 2, .str "bags"⟩],
       cl.key ∈ ALLOWED_KEYS ∧ 0 < cl.qty ∧ cl.unit ∈ ALLOWED_UNITS) ∧
    price_bom_lines [⟨.str "cement_bag", .num 2, .str "bag"⟩]
        (fun k => if k = "cement_bag" then some 10 else none) =
      .ok ([⟨.str "cement_bag", .num 2, .str "bag"⟩].filterMap
          (bomOutSpec fun k => if k = "cement_bag" then some 10 else none),
        pyRound2 (([⟨.str "cement_bag", .num 2, .str "bag"⟩].map
          (bomContribution fun k => if k = "cement_bag" then some 10 else none)).sum)) :=
  C9_validation_guarantees [some ⟨.str "cement_bag", .num 2, .str "bags"⟩]
    [⟨.str "cement_bag", .num 2, .str "bag"⟩]
    (fun k => if k = "cement_bag" then some 10 else none)
    (by
      intro it hit
      simp only [List.mem_singleton] at hit
      subst hit
      simp [bomLineQty, pyValFloat, pyValTruthy])

/-- C9 counterexample: `price_bom_lines` keeps a line with quantity −5
and unit `"weird"` (only the key is checked), and raises on a
non-numeric quantity instead of dropping the line. -/
theorem C9_price_bom_counterexample :
    price_bom_lines [⟨.str "cement_bag", .num (-5), .str "weird"⟩]
        (fun k => if k = "cement_bag" then some 10 else none) =
      .ok ([⟨"cement (bag)", -5, .str "weird", 10, -50⟩], -50) ∧
    ¬ (0 : ℚ) < -5 ∧ ("weird" : String) ∉ ALLOWED_UNITS ∧
    price_bom_lines [⟨.str "x", .str "abc", .str "bag"⟩]
        (fun k => if k = "cement_bag" then some 10 else none) = .error () := by
  refine ⟨?_, by norm_num, by simp [ALLOWED_UNITS], ?_⟩
  · simp [price_bom_lines, price_bom_go, price_bom_line, bomLineQty, pyValFloat,
      pyValTruthy, keyAllowedVal, ALLOWED_KEYS, lookupPrice, pretty_name,
      replaceSubstr, List.isSuffixOf, pyRound2, pyRoundHalfEven]
    norm_num [Int.fract]
  · simp [price_bom_lines, price_bom_go, price_bom_line, bomLineQty, pyValFloat,
      pyValTruthy, pyParseFloat, pyStripList, pyIsSpace, numChar, pyFloatTok,
      keyAllowedVal, ALLOWED_KEYS]
